import Mathlib

/-!
# Verification development for the AzTier deployer scripts

Shallow embedding of the two GitHub-action scripts of the repository:

* `.github/actions/detect-untiered/scripts/azTierWatcher.py`  (the "Watcher")
* `.github/actions/sync-from-upstream/scripts/azTierSyncer.py` (the "Syncer")

Python dictionaries holding string keys and values (the "assets" persisted in the
tiered/untiered JSON files and the upstream AAT entries) are modelled as ordered
association lists.  Network interaction of the batch-request client is modelled by
finite response scripts consumed in order, and the client's unbounded `while`
loops are modelled with an explicit fuel parameter: a `none` result means the
loop did not finish within the given fuel (in particular, a loop that can never
exit yields `none` for every fuel).  Fatal `exit()` calls and uncaught Python
exceptions are modelled as `Except` errors.

Python expressions such as `asset['id']` raise `KeyError` when the key is
missing; where a function's behaviour on key-less inputs is not at stake, the
embedding uses a total lookup with default `""` and theorems carry explicit
key-presence hypotheses instead.
-/

/-- An asset dictionary (`dict[str, str]` in the scripts): an ordered association
list of key/value pairs.  Real Python dicts have unique keys; theorems that rely
on this carry a `Nodup` hypothesis on the keys. -/
abbrev Asset := List (String × String)

namespace Asset

/-- `asset.get(k)`: first binding of key `k`, if any. -/
def get? (a : Asset) (k : String) : Option String :=
  (a.find? (fun p => p.1 == k)).map (fun p => p.2)

/-- `asset['id']`, totalised with default `""` (Python raises `KeyError` when the
key is missing; theorems that depend on faithfulness here assume the key is
present). -/
def idD (a : Asset) : String := (a.get? "id").getD ""

/-- `asset['detectedOn']`, totalised with default `""`. -/
def detectedOnD (a : Asset) : String := (a.get? "detectedOn").getD ""

/-- `list(asset.keys())`. -/
def keys (a : Asset) : List String := a.map Prod.fst

end Asset

/-- Abnormal terminations of the Python scripts. -/
inductive PyErr where
  /-- `print('FATAL ERROR - ...'); exit()` -/
  | fatalExit
  /-- an uncaught `TypeError` -/
  | typeError
  /-- an uncaught `KeyError` -/
  | keyError
  /-- an uncaught `AttributeError` -/
  | attributeError
  deriving Repr, DecidableEq

/-- Python `str.lower()` (character-wise lower-casing; same as `String.toLower`,
written over the character list so that it evaluates by `rfl`/`decide`). -/
def pyLower (s : String) : String := ⟨s.data.map Char.toLower⟩

/-- Python `list.insert(n, x)`: inserts before position `n`, clamping `n` to the
list length (so an out-of-range index appends at the end). -/
def pyInsert (n : Nat) (x : α) (l : List α) : List α := l.take n ++ x :: l.drop n

/-- One step of Python `dict(pairs)` construction: assigning to an existing key
overwrites its value in place (the key keeps its original position), otherwise
the new pair is appended at the end. -/
def pyDictInsert (d : Asset) (k v : String) : Asset :=
  if (Asset.keys d).contains k then d.map (fun p => if p.1 == k then (p.1, v) else p)
  else d ++ [(k, v)]

/-- Python `dict(pairs)` on a list of key/value pairs. -/
def pyDict (l : List (String × String)) : Asset :=
  l.foldl (fun d kv => pyDictInsert d kv.1 kv.2) []

namespace AzTierSyncer

/-- `find_added_assets` of azTierSyncer.py (lines 865-891): guards the length
precondition with a fatal exit, then returns, for every id present in
`extended_assets` but not in `base_assets`, the first extended asset carrying
that id. -/
def find_added_assets (extended_assets base_assets : List Asset) :
    Except PyErr (List Asset) :=
  if extended_assets.length < base_assets.length then .error .fatalExit
  else
    let extended_asset_ids := extended_assets.map Asset.idD
    let base_asset_ids := base_assets.map Asset.idD
    let added_asset_ids := extended_asset_ids.filter (fun i => !(base_asset_ids.contains i))
    .ok (added_asset_ids.filterMap
      (fun i => (extended_assets.filter (fun a => Asset.idD a == i)).head?))

/-- `find_removed_assets` of azTierSyncer.py (lines 894-920): guards the length
precondition with a fatal exit, then returns, for every id present in
`base_assets` but not in `extended_assets`, the first base asset carrying that
id. -/
def find_removed_assets (extended_assets base_assets : List Asset) :
    Except PyErr (List Asset) :=
  if extended_assets.length < base_assets.length then .error .fatalExit
  else
    let extended_asset_ids := extended_assets.map Asset.idD
    let base_asset_ids := base_assets.map Asset.idD
    let removed_asset_ids := base_asset_ids.filter (fun i => !(extended_asset_ids.contains i))
    .ok (removed_asset_ids.filterMap
      (fun i => (base_assets.filter (fun a => Asset.idD a == i)).head?))

/-- The keys of `base_asset` that also occur in `extended_asset` and whose
values differ (`azTierSyncer.py` lines 949-954: the inner property loop of
`find_modified_assets`). -/
def sharedDiffKeys (extended_asset base_asset : Asset) : List String :=
  (Asset.keys base_asset).filter
    (fun k => (Asset.keys extended_asset).contains k
      && decide (Asset.get? base_asset k ≠ Asset.get? extended_asset k))

/-- The per-base-asset body of `find_modified_assets` iterated over the base
list: `modified_assets.append(base_asset)` fires once per differing shared
property.  The test `if extended_assets:` in the source checks the *list*
`extended_assets` (not the looked-up `extended_asset`), so a base asset with no
id match in a nonempty extended list reaches `extended_asset.keys()` on `None`
and raises `AttributeError`. -/
def find_modified_go (extended_assets : List Asset) :
    List Asset → Except PyErr (List Asset)
  | [] => .ok []
  | base_asset :: rest =>
    if extended_assets.isEmpty then
      -- `if extended_assets:` is false: the loop body is skipped entirely
      find_modified_go extended_assets rest
    else
      match extended_assets.find? (fun a => Asset.idD a == Asset.idD base_asset) with
      | none => .error .attributeError
      | some extended_asset =>
        match find_modified_go extended_assets rest with
        | .error e => .error e
        | .ok l =>
          .ok (List.replicate (sharedDiffKeys extended_asset base_asset).length base_asset ++ l)

/-- `find_modified_assets` of azTierSyncer.py (lines 923-956). -/
def find_modified_assets (extended_assets base_assets : List Asset) :
    Except PyErr (List Asset) :=
  if extended_assets.length < base_assets.length then .error .fatalExit
  else find_modified_go extended_assets base_assets

/-- `enrich_asset_with_type` of azTierSyncer.py (lines 1004-1029): validates
the type tag, inserts `('assetType', readable)` at position 3 of the item list
and rebuilds a dict from it. -/
def enrich_asset_with_type (asset : Asset) (asset_type : String) : Except PyErr Asset :=
  let asset_type := pyLower asset_type
  let valid_asset_types := ["builtin", "custom"]
  if !(valid_asset_types.contains asset_type) then .error .fatalExit
  else
    let readable_asset_type := if asset_type == "builtin" then "Built-in" else "Custom"
    .ok (pyDict (pyInsert 3 ("assetType", readable_asset_type) asset))

/-- `enrich_asset_with_scope` of azTierSyncer.py (lines 1032-1046): inserts
`('assignableScope', scope)` at position 4 of the item list and rebuilds a dict
from it. -/
def enrich_asset_with_scope (asset : Asset) (asset_scope : String) : Asset :=
  pyDict (pyInsert 4 ("assignableScope", asset_scope) asset)

end AzTierSyncer

namespace AzTierWatcher

/-- The enrichment performed on one added asset by the Watcher's
`find_added_assets` (azTierWatcher.py lines 769-778).  Each field access
`added_asset['...']` raises `KeyError` when the key is missing. -/
def enrich_added_asset (date : String) (added_asset : Asset) : Except PyErr Asset :=
  match Asset.get? added_asset "id", Asset.get? added_asset "name",
      Asset.get? added_asset "type", Asset.get? added_asset "scope",
      Asset.get? added_asset "definition", Asset.get? added_asset "documentation" with
  | some i, some nm, some ty, some sc, some df, some doc =>
    .ok [("detectedOn", date), ("apiEvent", "added"), ("id", i), ("assetName", nm),
      ("assetType", ty), ("assignableScope", sc), ("assetDefinition", df),
      ("documentationUri", doc)]
  | _, _, _, _, _, _ => .error .keyError

/-- `find_added_assets` of azTierWatcher.py (lines 746-781).  Unlike the Syncer
variant there is NO length-precondition check; the current date (used for
`detectedOn`) is passed in as a parameter. -/
def find_added_assets (date : String) (extended_assets base_assets : List Asset) :
    Except PyErr (List Asset) :=
  let extended_asset_ids := extended_assets.map Asset.idD
  let base_asset_ids := base_assets.map Asset.idD
  let added_asset_ids := extended_asset_ids.filter (fun i => !(base_asset_ids.contains i))
  (added_asset_ids.filterMap
      (fun i => (extended_assets.filter (fun a => Asset.idD a == i)).head?)).mapM
    (enrich_added_asset date)

/-- `find_removed_assets` of azTierWatcher.py (lines 784-809).  Unlike the
Syncer variant there is NO length-precondition check. -/
def find_removed_assets (extended_assets base_assets : List Asset) : List Asset :=
  let extended_asset_ids := extended_assets.map Asset.idD
  let base_asset_ids := base_assets.map Asset.idD
  let removed_asset_ids := base_asset_ids.filter (fun i => !(extended_asset_ids.contains i))
  removed_asset_ids.filterMap
    (fun i => (base_assets.filter (fun a => Asset.idD a == i)).head?)

/-- `update_untiered_assets` of azTierWatcher.py (lines 860-903), modelled on
the file *contents*: takes the parsed untiered list and the added assets,
returns the new file contents together with the boolean result.  Assets whose
id already occurs in the file are skipped; the merged list is sorted by
`detectedOn` descending (Python `sort(key=..., reverse=True)` is stable). -/
def update_untiered_assets (untiered_assets added_assets : List Asset) :
    List Asset × Bool :=
  let untiered_asset_ids := untiered_assets.map Asset.idD
  let assets_to_add :=
    added_assets.filter (fun a => !(untiered_asset_ids.contains (Asset.idD a)))
  let has_content_been_updated := decide (0 < assets_to_add.length)
  let merged := untiered_assets ++ assets_to_add
  let sorted := merged.mergeSort
    (fun a b => decide (Asset.detectedOnD b ≤ Asset.detectedOnD a))
  (sorted, has_content_been_updated)

/-- The Azure-roles removal step of the Watcher main block (azTierWatcher.py
lines 1029-1033): tiered roles whose id is no longer among the merged
built-in-in-use + custom tenant roles are computed by `find_removed_assets` and
dropped from the tiered list by `role not in removed_azure_roles`. -/
def watcher_azure_removal (azure_roles tiered_azure_roles : List Asset) : List Asset :=
  let removed_azure_roles := find_removed_assets azure_roles tiered_azure_roles
  tiered_azure_roles.filter (fun role => !(removed_azure_roles.contains role))

end AzTierWatcher

namespace BatchClient

/-!
The resilient batch-request client `send_batch_request_to_arm` together with its
inner helper `handle_asynchronous_http_responses` is character-identical in
azTierWatcher.py (lines 77-285) and azTierSyncer.py (lines 97-304); it is
modelled once here.  The network is a pair of finite response scripts (one for
top-level POSTs, one for the GETs issued while polling/paginating) consumed in
order; `get_arm_access_token()` and `time.sleep(...)` have no observable effect
on the returned data and are not modelled.
-/

/-- One entry of the `requests` array of a batch POST.  The `name` correlation
id is optional because some call sites (the management-group/subscription
batch) omit it. -/
structure BatchRequest where
  name : Option String := none
  httpMethod : String := "GET"
  url : String := ""
  deriving Repr, DecidableEq

/-- One item of a batch response (`responses`/`value` array element).  The
`headers` field models the optional `'headers'` key; `Retry-After` values are
modelled already parsed to integers (the source applies `int(...)` to them). -/
structure ItemResp where
  name : Option String := none
  httpStatusCode : Int := 200
  headers : Option (List (String × Int)) := none
  deriving Repr, DecidableEq

/-- The decoded JSON body of a top-level or paginated HTTP response: the
optional `responses`, `value` and `nextLink` keys, plus the remaining top-level
keys for a body that has neither `responses` nor `value` (needed to model
iteration over such a plain dict). -/
structure Body where
  responses : Option (List ItemResp) := none
  value : Option (List ItemResp) := none
  nextLink : Option String := none
  plainKeys : List String := []
  deriving Repr, DecidableEq

/-- An HTTP response as seen by the client: status code, the two headers it
reads (`Retry-After` already parsed to an integer, `Location`), and the decoded
JSON body. -/
structure HttpResponse where
  status_code : Int := 200
  retryAfter : Option Int := none
  location : Option String := none
  body : Body := {}
  deriving Repr, DecidableEq

/-- Result of `handle_asynchronous_http_responses`: a list of response items, a
plain JSON dict (the `return http_response.json()` fallthrough of the 200
branch), or the `return None` failure signal. -/
inductive HandlerOut where
  | items (rs : List ItemResp)
  | plainDict (ks : List String)
  | failedNone
  deriving Repr, DecidableEq

/-- The poll loop of the 202 branch (azTierWatcher.py lines 134-138):
`while page_response.status_code == 202:` sleep, then GET the `Location` URL of
the *original* response.  Consumes one scripted GET response per iteration;
`requests.get(None)` (missing `Location` header) raises. -/
def poll_until_ready (location : Option String) :
    Nat → List HttpResponse → HttpResponse →
    Option (Except PyErr (HttpResponse × List HttpResponse))
  | 0, _, _ => none
  | fuel + 1, gets, page_response =>
    if page_response.status_code == 202 then
      match location with
      | none => some (.error .typeError)
      | some _ =>
        match gets with
        | [] => none
        | g :: rest => poll_until_ready location fuel rest g
    else some (.ok (page_response, gets))

/-- The inner wait loop of the pagination branch (azTierWatcher.py lines
154-156): `while next_page_response.status_code == 202: time.sleep(...)`.
The body only sleeps — it never re-issues the request — so once entered with a
202 status the loop can never exit. -/
def wait_for_next_page : Nat → Int → Option Unit
  | 0, _ => none
  | fuel + 1, status => if status == 202 then wait_for_next_page fuel status else some ()

/-- The `while next_page:` pagination loop (azTierWatcher.py lines 150-160):
follows `nextLink` fields, accumulating each page's `value` array. -/
def retrieve_next_pages :
    Nat → List HttpResponse → String → List ItemResp →
    Option (Except PyErr (List ItemResp × List HttpResponse))
  | 0, _, _, _ => none
  | fuel + 1, gets, next_page, all_responses =>
    if next_page == "" then some (.ok (all_responses, gets))
    else
      match gets with
      | [] => none
      | g :: rest =>
        match wait_for_next_page (fuel + 1) g.status_code with
        | none => none
        | some _ =>
          match g.body.value with
          | none => some (.error .keyError)
          | some v =>
            retrieve_next_pages fuel rest (g.body.nextLink.getD "")
              (all_responses ++ v)

/-- `handle_asynchronous_http_responses` (azTierWatcher.py lines 116-180).
Returns the handler outcome together with the unconsumed GET script; `none`
means a loop inside the handler did not finish within the fuel. -/
def handle_asynchronous_http_responses (fuel : Nat) (gets : List HttpResponse)
    (http_response : HttpResponse) :
    Option (Except PyErr (HandlerOut × List HttpResponse)) :=
  if http_response.status_code == 202 then
    match http_response.retryAfter with
    | none => some (.error .typeError)   -- int(None) on a missing Retry-After header
    | some _ =>
      match poll_until_ready http_response.location fuel gets http_response with
      | none => none
      | some (.error e) => some (.error e)
      | some (.ok (page_response, gets1)) =>
        if page_response.status_code != 200 then some (.ok (.failedNone, gets1))
        else
          match page_response.body.value with
          | none => some (.error .keyError)
          | some v =>
            match retrieve_next_pages fuel gets1 (page_response.body.nextLink.getD "") v with
            | none => none
            | some (.error e) => some (.error e)
            | some (.ok (all_responses, gets2)) => some (.ok (.items all_responses, gets2))
  else if http_response.status_code == 200 then
    match http_response.body.responses with
    | some rs => some (.ok (.items rs, gets))
    | none =>
      match http_response.body.value with
      | some v => some (.ok (.items v, gets))
      | none => some (.ok (.plainDict http_response.body.plainKeys, gets))
  else
    some (.ok (.failedNone, gets))

/-- The `Retry-After` header values present among a round's throttled responses
(azTierWatcher.py line 271). -/
def retry_after_values (throttled_responses : List ItemResp) : List Int :=
  throttled_responses.filterMap
    (fun r => r.headers.bind (fun hs => (hs.find? (fun p => p.1 == "Retry-After")).map (fun p => p.2)))

/-- The computed throttling wait (azTierWatcher.py lines 270-273):
`total = sum(...) if retry_after_headers else 0` and
`avg = total / len(retry_after_headers) if total else default_wait_time`.
Note the guard tests the *sum*, not the presence of headers. -/
def avg_retry_after (retry_after_headers : List Int) : ℚ :=
  let default_wait_time : ℚ := 20
  let total_retry_after : Int :=
    if retry_after_headers.isEmpty then 0 else retry_after_headers.sum
  if total_retry_after ≠ 0 then (total_retry_after : ℚ) / (retry_after_headers.length : ℚ)
  else default_wait_time

/-- `next((r for r in chunked_batch_request if r['name'] == name), None)`
(azTierWatcher.py lines 258, 266): a linear scan over the originally chunked
requests; evaluating `r['name']` on a request without a `name` key raises
`KeyError` before any later match can be found. -/
def pyFindByName : List BatchRequest → String → Except PyErr (Option BatchRequest)
  | [], _ => .ok none
  | r :: rest, nm =>
    match r.name with
    | none => .error .keyError
    | some n => if n == nm then .ok (some r) else pyFindByName rest nm

/-- Collecting one retry candidate: `failed_response['name']` raises `KeyError`
on an unnamed response item, then the original request is looked up by name. -/
def collect_one (chunk : List BatchRequest) (resp : ItemResp) :
    Except PyErr (Option BatchRequest) :=
  match resp.name with
  | none => .error .keyError
  | some nm => pyFindByName chunk nm

/-- Collecting retry candidates for a list of failed/throttled responses, in
order. -/
def collect_list (chunk : List BatchRequest) :
    List ItemResp → Except PyErr (List (Option BatchRequest))
  | [] => .ok []
  | r :: rest =>
    match collect_one chunk r with
    | .error e => .error e
    | .ok req =>
      match collect_list chunk rest with
      | .error e => .error e
      | .ok l => .ok (req :: l)

/-- The retry-collection of one round (azTierWatcher.py lines 254-267):
requests for the 500 responses, then the 503 responses, then the throttled 429
responses are appended to `remaining_requests`. -/
def collect_retry_requests (chunk : List BatchRequest) (rs : List ItemResp) :
    Except PyErr (List (Option BatchRequest)) :=
  let server_error_responses := rs.filter (fun r => r.httpStatusCode == 500)
  let service_unavailable_responses := rs.filter (fun r => r.httpStatusCode == 503)
  let throttled_responses := rs.filter (fun r => r.httpStatusCode == 429)
  collect_list chunk
    (server_error_responses ++ service_unavailable_responses ++ throttled_responses)

/-- The response analysis of one round of the chunk loop (azTierWatcher.py
lines 206-277): successful responses, the next `remaining_requests`, and the
throttling sleep computed for this round (when any response was throttled). -/
def analyze_chunk_round (chunk : List BatchRequest) (rs : List ItemResp) :
    Except PyErr (List ItemResp × List (Option BatchRequest) × Option ℚ) :=
  let successful_responses := rs.filter (fun r => r.httpStatusCode == 200)
  let throttled_responses := rs.filter (fun r => r.httpStatusCode == 429)
  match collect_retry_requests chunk rs with
  | .error e => .error e
  | .ok remaining_requests =>
    let sleep :=
      if throttled_responses.isEmpty then none
      else some (avg_retry_after (retry_after_values throttled_responses))
    .ok (successful_responses, remaining_requests, sleep)

end BatchClient

namespace BatchClient

/-- The two network scripts: responses to top-level batch POSTs and responses
to the GETs issued while polling and paginating, each consumed in order. -/
structure NetScript where
  posts : List HttpResponse := []
  gets : List HttpResponse := []
  deriving Repr, DecidableEq

/-- One round of the chunk retry loop, as recorded in the submission trace:
the `remaining_requests` POSTed in that round (the first round submits the
chunk itself) and the response items obtained for it. -/
structure Round where
  submitted : List (Option BatchRequest)
  items : List ItemResp
  deriving Repr, DecidableEq

/-- The `while remaining_requests:` retry loop for one chunk (azTierWatcher.py
lines 196-277).  Besides the accumulated successful responses it returns the
unconsumed network scripts and the trace of per-round submissions.  A `none`
result means the loop (or a loop inside the handler) did not finish within the
fuel or the network script ran out. -/
def process_chunk (chunk : List BatchRequest) :
    Nat → NetScript → List (Option BatchRequest) → List ItemResp → List Round →
    Option (Except PyErr (List ItemResp) × NetScript × List Round)
  | 0, _, _, _, _ => none
  | fuel + 1, net, remaining_requests, complete_response, rounds =>
    if remaining_requests.isEmpty then some (.ok complete_response, net, rounds)
    else
      match net.posts with
      | [] => none
      | http_response :: posts1 =>
        match handle_asynchronous_http_responses (fuel + 1) net.gets http_response with
        | none => none
        | some (.error e) =>
          some (.error e, ⟨posts1, net.gets⟩, rounds ++ [⟨remaining_requests, []⟩])
        | some (.ok (out, gets1)) =>
          let net1 : NetScript := ⟨posts1, gets1⟩
          match out with
          | .failedNone =>
            -- the handler returned None; the list comprehensions iterate it: TypeError
            some (.error .typeError, net1, rounds ++ [⟨remaining_requests, []⟩])
          | .plainDict ks =>
            if ks.isEmpty then
              -- iterating an empty dict: every status filter is empty, the
              -- retry collection is empty and the loop exits on the next test
              process_chunk chunk fuel net1 [] complete_response
                (rounds ++ [⟨remaining_requests, []⟩])
            else
              -- iterating a nonempty dict yields its keys (strings);
              -- `response['httpStatusCode']` on a string raises TypeError
              some (.error .typeError, net1, rounds ++ [⟨remaining_requests, []⟩])
          | .items rs =>
            match analyze_chunk_round chunk rs with
            | .error e => some (.error e, net1, rounds ++ [⟨remaining_requests, rs⟩])
            | .ok (successful_responses, remaining1, _sleep) =>
              process_chunk chunk fuel net1 remaining1
                (complete_response ++ successful_responses)
                (rounds ++ [⟨remaining_requests, rs⟩])

/-- `batch_request_size_limit = 500` (azTierWatcher.py line 187). -/
def batch_request_size_limit : Nat := 500

/-- The chunking list comprehension
`[batch_requests[i:i + 500] for i in range(0, len(batch_requests), 500)]`
(azTierWatcher.py line 188). -/
def pyChunks : List α → List (List α)
  | [] => []
  | x :: xs =>
    (x :: xs).take batch_request_size_limit ::
      pyChunks ((x :: xs).drop batch_request_size_limit)
termination_by l => l.length
decreasing_by simp [batch_request_size_limit]; omega

/-- The `for chunked_batch_request in chunked_batch_requests:` loop of
`send_batch_request_to_arm` (azTierWatcher.py lines 190-280). -/
def send_batch_go (fuel : Nat) :
    List (List BatchRequest) → NetScript → List ItemResp → List Round →
    Option (Except PyErr (List ItemResp) × List Round)
  | [], _, complete_response, rounds => some (.ok complete_response, rounds)
  | chunk :: chunks, net, complete_response, rounds =>
    match process_chunk chunk fuel net (chunk.map some) complete_response rounds with
    | none => none
    | some (.error e, _, rounds1) => some (.error e, rounds1)
    | some (.ok complete1, net1, rounds1) =>
      send_batch_go fuel chunks net1 complete1 rounds1

/-- `send_batch_request_to_arm` (azTierWatcher.py lines 77-285, identical in
azTierSyncer.py lines 97-304): chunks the requests, runs the retry loop per
chunk and accumulates the successful responses; additionally returns the trace
of every submission made. -/
def send_batch_request_to_arm (fuel : Nat) (net : NetScript)
    (batch_requests : List BatchRequest) :
    Option (Except PyErr (List ItemResp) × List Round) :=
  send_batch_go fuel (pyChunks batch_requests) net [] []

/-- The correlation guarantee of the remote batch endpoint for one round: every
response item carries a `name`, the names are pairwise distinct, and each of
them is the name of one of the requests submitted in that round. -/
def roundCorrelated (r : Round) : Prop :=
  r.items.length = (r.items.filterMap ItemResp.name).length ∧
  (r.items.filterMap ItemResp.name).Nodup ∧
  ∀ nm ∈ r.items.filterMap ItemResp.name,
    nm ∈ r.submitted.filterMap (fun o => o.bind BatchRequest.name)

instance (r : Round) : Decidable (roundCorrelated r) := by
  unfold roundCorrelated; infer_instance

end BatchClient

/-- Python `next((i for i, x in enumerate(l) if p(x)), None)`: index of the
first element satisfying `p`, if any. -/
def pyEnumFindIdx (p : α → Bool) : List α → Option Nat
  | [] => none
  | a :: rest => if p a then some 0 else (pyEnumFindIdx p rest).map (fun i => i + 1)

namespace AzTierSyncer

/-- The body of the `for modified_tiered_azure_role in modified_tiered_azure_roles:`
loop (azTierSyncer.py lines 1106-1114): look the modified role up in the AAT
list, enrich the AAT version and overwrite the first local role with the same
id in place (`tiered_all_roles_from_local[index] = ...`; an index of `None`
would raise `TypeError`). -/
def sync_modified_step (tiered_builtin_roles_from_aat : List Asset)
    (cur : List Asset) (modified_role : Asset) : Except PyErr (List Asset) :=
  let from_aat := tiered_builtin_roles_from_aat.filter
    (fun role => Asset.idD role == Asset.idD modified_role)
  match from_aat with
  | [] => .ok cur
  | aat_role :: _ =>
    match enrich_asset_with_type aat_role "builtin" with
    | .error e => .error e
    | .ok type_enriched =>
      let fully_enriched := enrich_asset_with_scope type_enriched "/"
      match pyEnumFindIdx (fun role => Asset.idD role == Asset.idD modified_role) cur with
      | none => .error .typeError      -- tiered_all_roles_from_local[None] = ...
      | some index => .ok (cur.set index fully_enriched)

/-- The "Modified Azure roles" phase (azTierSyncer.py lines 1102-1114): skipped
entirely when `keep_local_changes` is set, otherwise every modified role is
overwritten in place with the enriched AAT version. -/
def sync_modified_phase (keep_local_changes : Bool)
    (tiered_builtin_roles_from_aat tiered_builtin_roles_from_local local1 : List Asset) :
    Except PyErr (List Asset) :=
  if keep_local_changes then .ok local1
  else
    match find_modified_assets tiered_builtin_roles_from_aat
        tiered_builtin_roles_from_local with
    | .error e => .error e
    | .ok modified =>
      modified.foldlM (sync_modified_step tiered_builtin_roles_from_aat) local1

/-- The "Added Azure roles" phase (azTierSyncer.py lines 1069-1100, without
the final appends): compute the added roles, optionally keep only those in
use, and enrich each with type and scope.
`built_in_defs_in_use_role_ids` models
`[r['roleId'] for r in built_in_azure_role_definitions_in_use]`, the short ids
of the built-in role definitions fetched from the tenant. -/
def sync_added_phase (include_only_roles_in_use : Bool)
    (tiered_builtin_roles_from_aat tiered_builtin_roles_from_local : List Asset)
    (built_in_defs_in_use_role_ids : List String) : Except PyErr (List Asset) :=
  match find_added_assets tiered_builtin_roles_from_aat tiered_builtin_roles_from_local with
  | .error e => .error e
  | .ok added0 =>
    let added_tiered_azure_roles :=
      if include_only_roles_in_use then
        added0.filter (fun role => built_in_defs_in_use_role_ids.contains (Asset.idD role))
      else added0
    added_tiered_azure_roles.mapM (fun added_azure_role =>
      (match enrich_asset_with_type added_azure_role "builtin" with
      | .error e => .error e
      | .ok type_enriched =>
        .ok (enrich_asset_with_scope type_enriched "/") : Except PyErr Asset))

/-- The "Removed Azure roles" phase (azTierSyncer.py lines 1116-1122): every
removed role that is Built-in is dropped, by id, from the working list. -/
def sync_removed_phase
    (tiered_builtin_roles_from_aat tiered_builtin_roles_from_local local2 : List Asset) :
    Except PyErr (List Asset) :=
  match find_removed_assets tiered_builtin_roles_from_aat
      tiered_builtin_roles_from_local with
  | .error e => .error e
  | .ok removed =>
    let removed_builtin :=
      removed.filter (fun role => Asset.get? role "assetType" == some "Built-in")
    .ok (removed_builtin.foldl
      (fun cur removed_azure_role =>
        cur.filter (fun role => Asset.idD role != Asset.idD removed_azure_role))
      local2)

/-- The Azure branch of `run_sync_workflow` (azTierSyncer.py lines 1065-1126).
The data obtained from the tenant over the network is passed in as parameters:
`all_azure_role_ids_in_use` models the short role ids collected when
`include_only_roles_in_use` is set (initialised to `[]` otherwise, as in the
source), and `built_in_defs_in_use_role_ids` the role ids of the built-in
definitions in use.  The source binds
`tiered_builtin_roles_from_local` once; it is written out at each use here. -/
def run_sync_workflow_azure (keep_local_changes include_only_roles_in_use : Bool)
    (tiered_builtin_roles_from_aat tiered_all_roles_from_local : List Asset)
    (all_azure_role_ids_in_use built_in_defs_in_use_role_ids : List String) :
    Except PyErr (List Asset) :=
  match sync_added_phase include_only_roles_in_use tiered_builtin_roles_from_aat
      (tiered_all_roles_from_local.filter
        (fun role => Asset.get? role "assetType" == some "Built-in"))
      built_in_defs_in_use_role_ids with
  | .error e => .error e
  | .ok enriched_added =>
    match sync_modified_phase keep_local_changes tiered_builtin_roles_from_aat
        (tiered_all_roles_from_local.filter
          (fun role => Asset.get? role "assetType" == some "Built-in"))
        (tiered_all_roles_from_local ++ enriched_added) with
    | .error e => .error e
    | .ok local2 =>
      match sync_removed_phase tiered_builtin_roles_from_aat
          (tiered_all_roles_from_local.filter
            (fun role => Asset.get? role "assetType" == some "Built-in"))
          local2 with
      | .error e => .error e
      | .ok local3 =>
        -- Check if tiered roles are still in use
        .ok (if include_only_roles_in_use then
            local3.filter (fun role =>
              all_azure_role_ids_in_use.contains (Asset.idD role)
                || Asset.get? role "assetType" == some "Custom")
          else local3)

end AzTierSyncer

/-! ## Helper lemmas on the Python dict/list primitives -/

theorem pyDict_go_eq (l : Asset) : ∀ acc : Asset,
    ((acc ++ l).map Prod.fst).Nodup →
    l.foldl (fun d kv => pyDictInsert d kv.1 kv.2) acc = acc ++ l := by
  induction l with
  | nil => intro acc _; simp
  | cons kv rest ih =>
    intro acc h
    have hmem : kv.1 ∉ acc.map Prod.fst := by
      simp only [List.map_append, List.map_cons] at h
      rcases List.nodup_append.mp h with ⟨-, -, hdisj⟩
      intro hc
      exact hdisj hc (by simp)
    have hstep : pyDictInsert acc kv.1 kv.2 = acc ++ [kv] := by
      have hcont : ((Asset.keys acc).contains kv.1) = false := by
        rw [Bool.eq_false_iff]
        intro hc
        exact hmem (List.elem_iff.mp hc)
      unfold pyDictInsert
      rw [hcont]
      simp
    have hrec := ih (acc ++ [kv]) (by simpa using h)
    simp only [List.foldl_cons, hstep, hrec]
    simp
theorem pyDict_eq_self (l : Asset) (h : (l.map Prod.fst).Nodup) : pyDict l = l := by
  have := pyDict_go_eq l [] (by simpa using h)
  simpa [pyDict] using this

theorem pyInsert_perm (n : Nat) (x : α) (l : List α) : (pyInsert n x l).Perm (x :: l) := by
  have h := @List.perm_middle _ x (l.take n) (l.drop n)
  rwa [List.take_append_drop] at h

theorem map_pyInsert (f : α → β) (n : Nat) (x : α) (l : List α) :
    (pyInsert n x l).map f = pyInsert n (f x) (l.map f) := by
  simp [pyInsert, List.map_take, List.map_drop]

/-! ## C10: enrichment frame/effect -/

/-- C10, counterexample: on an asset that already contains an `'assetType'`
key (here at position 1), `enrich_asset_with_type` does not add a new entry —
`dict(...)` collapses the duplicate key, the original value `"X"` is lost and
the key count stays the same, contradicting "preserves every original key with
its original value and adds exactly one new entry ... including when the input
already contains a key of that name". -/
theorem C10_counterexample :
    AzTierSyncer.enrich_asset_with_type [("id", "1"), ("assetType", "X")] "builtin" =
      .ok [("id", "1"), ("assetType", "Built-in")] ∧
    ("assetType", "X") ∉ ([("id", "1"), ("assetType", "Built-in")] : Asset) ∧
    ([("id", "1"), ("assetType", "Built-in")] : Asset).length ≠
      ([("id", "1"), ("assetType", "X")] : Asset).length + 1 := by
  refine ⟨by rfl, by decide, by decide⟩

/-- C10 (amended): when the input asset does not already contain the key being
added (and has duplicate-free keys, as every real Python dict does),
`enrich_asset_with_type` / `enrich_asset_with_scope` return a new asset that
keeps every original key/value pair in order and inserts exactly one new entry
(`'assetType'` at position 3, `'assignableScope'` at position 4, clamped to the
end for shorter assets), without mutating the input; when the key is already
present, `dict(...)` collapses the duplicate instead of adding an entry. -/
theorem C10_amended_enrichment (asset : Asset)
    (hkeys : (Asset.keys asset).Nodup)
    (hty : "assetType" ∉ Asset.keys asset)
    (hsc : "assignableScope" ∉ Asset.keys asset) :
    AzTierSyncer.enrich_asset_with_type asset "builtin" =
      .ok (pyInsert 3 ("assetType", "Built-in") asset) ∧
    AzTierSyncer.enrich_asset_with_scope asset "/" =
      pyInsert 4 ("assignableScope", "/") asset ∧
    (∀ kv ∈ asset, kv ∈ pyInsert 3 ("assetType", "Built-in") asset) ∧
    (∀ kv ∈ asset, kv ∈ pyInsert 4 ("assignableScope", "/") asset) ∧
    (pyInsert 3 ("assetType", "Built-in") asset).length = asset.length + 1 ∧
    (pyInsert 4 ("assignableScope", "/") asset).length = asset.length + 1 := by
  have hnodup : ∀ (k : String) (v : String) (n : Nat), k ∉ Asset.keys asset →
      ((pyInsert n (k, v) asset).map Prod.fst).Nodup := by
    intro k v n hk
    rw [map_pyInsert]
    exact ((pyInsert_perm n k (asset.map Prod.fst)).symm).nodup
      (List.nodup_cons.mpr ⟨hk, hkeys⟩)
  have e1 : AzTierSyncer.enrich_asset_with_type asset "builtin" =
      .ok (pyDict (pyInsert 3 ("assetType", "Built-in") asset)) := rfl
  have e2 : AzTierSyncer.enrich_asset_with_scope asset "/" =
      pyDict (pyInsert 4 ("assignableScope", "/") asset) := rfl
  refine ⟨?_, ?_, ?_, ?_, ?_, ?_⟩
  · rw [e1, pyDict_eq_self _ (hnodup _ _ _ hty)]
  · rw [e2, pyDict_eq_self _ (hnodup _ _ _ hsc)]
  · intro kv hkv
    exact (pyInsert_perm 3 ("assetType", "Built-in") asset).mem_iff.mpr
      (List.mem_cons_of_mem _ hkv)
  · intro kv hkv
    exact (pyInsert_perm 4 ("assignableScope", "/") asset).mem_iff.mpr
      (List.mem_cons_of_mem _ hkv)
  · simpa using (pyInsert_perm 3 ("assetType", "Built-in") asset).length_eq
  · simpa using (pyInsert_perm 4 ("assignableScope", "/") asset).length_eq

/-- Witness for C10 on a concrete three-key asset. -/
theorem C10_witness :
    AzTierSyncer.enrich_asset_with_type
        [("id", "1"), ("assetName", "n"), ("tier", "0")] "builtin" =
      .ok (pyInsert 3 ("assetType", "Built-in")
        [("id", "1"), ("assetName", "n"), ("tier", "0")]) :=
  (C10_amended_enrichment [("id", "1"), ("assetName", "n"), ("tier", "0")]
    (by decide) (by decide) (by decide)).1

/-! ## C4: the throttling wait computation -/

/-- C4, counterexample: a single throttled response carrying `Retry-After: 0`.
The arithmetic mean of the present `Retry-After` values is `0`, but the code
computes the fixed default of `20` (the guard `if total_retry_after` tests the
sum, not the presence of headers), contradicting "the fixed default of 20
seconds is used only when no throttled response carries a Retry-After
header". -/
theorem C4_counterexample :
    BatchClient.retry_after_values
        [{name := some "a", httpStatusCode := 429,
          headers := some [("Retry-After", 0)]}] = [0] ∧
    BatchClient.avg_retry_after [0] = 20 ∧
    (([0] : List Int).sum : ℚ) / (([0] : List Int).length : ℚ) = 0 := by
  refine ⟨rfl, rfl, by norm_num⟩

/-- C4 (amended): the sleep before resubmitting throttled requests equals the
arithmetic mean of the present `Retry-After` values whenever their sum is
nonzero; the fixed default of 20 seconds is used when no throttled response
carries a `Retry-After` header and also whenever the present values sum to
zero. -/
theorem C4_amended_retry_after_mean (throttled_responses : List BatchClient.ItemResp) :
    ((BatchClient.retry_after_values throttled_responses).sum ≠ 0 →
      BatchClient.avg_retry_after (BatchClient.retry_after_values throttled_responses) =
        ((BatchClient.retry_after_values throttled_responses).sum : ℚ) /
          ((BatchClient.retry_after_values throttled_responses).length : ℚ)) ∧
    ((BatchClient.retry_after_values throttled_responses).sum = 0 →
      BatchClient.avg_retry_after (BatchClient.retry_after_values throttled_responses) = 20) := by
  generalize BatchClient.retry_after_values throttled_responses = vals
  constructor
  · intro hsum
    have hne : vals.isEmpty = false := by
      cases vals with
      | nil => simp at hsum
      | cons a l => rfl
    simp [BatchClient.avg_retry_after, hne, hsum]
  · intro hsum
    cases vals with
    | nil => rfl
    | cons a l => simp [BatchClient.avg_retry_after, hsum]

/-- Witness for C4 on the spec's own example: throttled responses carrying
`Retry-After` 10, 20 and 30 sleep for their mean, 20 seconds. -/
theorem C4_witness :
    BatchClient.avg_retry_after (BatchClient.retry_after_values
      [{name := some "a", httpStatusCode := 429, headers := some [("Retry-After", 10)]},
       {name := some "b", httpStatusCode := 429, headers := some [("Retry-After", 20)]},
       {name := some "c", httpStatusCode := 429, headers := some [("Retry-After", 30)]}]) = 20 := by
  have hv : BatchClient.retry_after_values
      [{name := some "a", httpStatusCode := 429, headers := some [("Retry-After", 10)]},
       {name := some "b", httpStatusCode := 429, headers := some [("Retry-After", 20)]},
       {name := some "c", httpStatusCode := 429, headers := some [("Retry-After", 30)]}] =
      [10, 20, 30] := rfl
  rw [(C4_amended_retry_after_mean
    [{name := some "a", httpStatusCode := 429, headers := some [("Retry-After", 10)]},
     {name := some "b", httpStatusCode := 429, headers := some [("Retry-After", 20)]},
     {name := some "c", httpStatusCode := 429, headers := some [("Retry-After", 30)]}]).1
    (by decide), hv]
  norm_num

/-! ## Helper lemmas on the differ core -/

theorem diff_pick_spec (l : List Asset) (i : String) (hi : i ∈ l.map Asset.idD) :
    ∃ a, (l.filter (fun a => Asset.idD a == i)).head? = some a ∧ a ∈ l ∧ Asset.idD a = i := by
  rcases List.mem_map.mp hi with ⟨b, hb, hbi⟩
  have hbf : b ∈ l.filter (fun a => Asset.idD a == i) :=
    List.mem_filter.mpr ⟨hb, by simp [hbi]⟩
  have hne : l.filter (fun a => Asset.idD a == i) ≠ [] := by
    intro hemp
    rw [hemp] at hbf
    exact absurd hbf (List.not_mem_nil b)
  refine ⟨(l.filter (fun a => Asset.idD a == i)).head hne, List.head?_eq_head hne, ?_, ?_⟩
  · exact List.mem_of_mem_filter (List.head_mem hne)
  · have := List.of_mem_filter (List.head_mem hne)
    simpa using this

theorem filterMap_pick_map_idD (l : List Asset) : ∀ ids : List String,
    (∀ i ∈ ids, i ∈ l.map Asset.idD) →
    (ids.filterMap (fun i => (l.filter (fun a => Asset.idD a == i)).head?)).map Asset.idD
      = ids := by
  intro ids
  induction ids with
  | nil => intro _; rfl
  | cons i rest ih =>
    intro hids
    rcases diff_pick_spec l i (hids i (by simp)) with ⟨a, hpick, -, hai⟩
    rw [List.filterMap_cons, hpick]
    simp only [List.map_cons, hai]
    rw [ih (fun j hj => hids j (by simp [hj]))]

theorem mem_diff_result (l : List Asset) (ids : List String) (a : Asset)
    (ha : a ∈ ids.filterMap (fun i => (l.filter (fun x => Asset.idD x == i)).head?)) :
    a ∈ l ∧ Asset.idD a ∈ ids := by
  rcases List.mem_filterMap.mp ha with ⟨i, hi, hpick⟩
  have hmem : a ∈ l.filter (fun x => Asset.idD x == i) :=
    List.mem_of_mem_head? (by rw [hpick]; simp)
  refine ⟨List.mem_of_mem_filter hmem, ?_⟩
  have := List.of_mem_filter hmem
  have hai : Asset.idD a = i := by simpa using this
  rwa [hai]

theorem diff_id_complement (X Y : List Asset) (s : String) :
    (s ∈ (((X.map Asset.idD).filter (fun i => !((Y.map Asset.idD).contains i))).filterMap
        (fun i => (X.filter (fun a => Asset.idD a == i)).head?)).map Asset.idD ∨
      (s ∈ Y.map Asset.idD ∧ s ∈ X.map Asset.idD)) ↔ s ∈ X.map Asset.idD := by
  rw [filterMap_pick_map_idD X _ (fun i hi => (List.mem_filter.mp hi).1)]
  constructor
  · rintro (hs | ⟨-, hsX⟩)
    · exact (List.mem_filter.mp hs).1
    · exact hsX
  · intro hsX
    by_cases hsY : s ∈ Y.map Asset.idD
    · exact Or.inr ⟨hsY, hsX⟩
    · refine Or.inl (List.mem_filter.mpr ⟨hsX, ?_⟩)
      have hc : ((Y.map Asset.idD).contains s) = false := by
        rw [Bool.eq_false_iff]
        intro hcc
        exact hsY (List.elem_iff.mp hcc)
      rw [hc]
      rfl

/-! ## C6: the length-precondition guard -/

/-- C6, counterexample: the Watcher's `find_removed_assets` has no length
check — called with an extended list strictly shorter than the base list it
does not terminate the process, it simply returns the computed diff. -/
theorem C6_counterexample :
    (([] : List Asset)).length < ([[("id", "c1")]] : List Asset).length ∧
    AzTierWatcher.find_removed_assets [] [[("id", "c1")]] = [[("id", "c1")]] := by
  exact ⟨by decide, by rfl⟩

theorem enrich_added_asset_ok (date : String) (a : Asset)
    (h : (Asset.get? a "id").isSome ∧ (Asset.get? a "name").isSome ∧
      (Asset.get? a "type").isSome ∧ (Asset.get? a "scope").isSome ∧
      (Asset.get? a "definition").isSome ∧ (Asset.get? a "documentation").isSome) :
    ∃ x, AzTierWatcher.enrich_added_asset date a = .ok x ∧
      Asset.get? x "id" = some (Asset.idD a) := by
  obtain ⟨h1, h2, h3, h4, h5, h6⟩ := h
  rcases Option.isSome_iff_exists.mp h1 with ⟨i, hi⟩
  rcases Option.isSome_iff_exists.mp h2 with ⟨nm, hnm⟩
  rcases Option.isSome_iff_exists.mp h3 with ⟨ty, hty⟩
  rcases Option.isSome_iff_exists.mp h4 with ⟨sc, hsc⟩
  rcases Option.isSome_iff_exists.mp h5 with ⟨df, hdf⟩
  rcases Option.isSome_iff_exists.mp h6 with ⟨doc, hdoc⟩
  refine ⟨[("detectedOn", date), ("apiEvent", "added"), ("id", i), ("assetName", nm),
    ("assetType", ty), ("assignableScope", sc), ("assetDefinition", df),
    ("documentationUri", doc)], ?_, ?_⟩
  · simp only [AzTierWatcher.enrich_added_asset, hi, hnm, hty, hsc, hdf, hdoc]
  · rw [Asset.idD, hi]
    rfl

theorem mapM_enrich_ok (date : String) : ∀ l : List Asset,
    (∀ a ∈ l, (Asset.get? a "id").isSome ∧ (Asset.get? a "name").isSome ∧
      (Asset.get? a "type").isSome ∧ (Asset.get? a "scope").isSome ∧
      (Asset.get? a "definition").isSome ∧ (Asset.get? a "documentation").isSome) →
    ∃ out, l.mapM (AzTierWatcher.enrich_added_asset date) = .ok out ∧
      ∀ a ∈ l, ∃ x ∈ out, Asset.get? x "id" = some (Asset.idD a) := by
  intro l
  induction l with
  | nil =>
    intro _
    exact ⟨[], by rw [List.mapM_nil]; rfl, fun a ha => absurd ha (List.not_mem_nil a)⟩
  | cons a rest ih =>
    intro hkeys
    rcases enrich_added_asset_ok date a (hkeys a (by simp)) with ⟨x, hx, hxid⟩
    rcases ih (fun b hb => hkeys b (by simp [hb])) with ⟨out, hout, hmem⟩
    refine ⟨x :: out, ?_, ?_⟩
    · rw [List.mapM_cons, hx, hout]
      rfl
    · intro b hb
      rcases List.mem_cons.mp hb with hba | hbr
      · subst hba
        exact ⟨x, by simp, hxid⟩
      · rcases hmem b hbr with ⟨y, hy, hyid⟩
        exact ⟨y, by simp [hy], hyid⟩

/-- C6 (amended): only the Syncer's `find_added_assets`, `find_removed_assets`
and `find_modified_assets` treat `len(extended) < len(base)` as a fatal usage
error; the Watcher's `find_added_assets` and `find_removed_assets` perform no
length check and compute their diff regardless.  On such inputs the Watcher's
`find_removed_assets` still yields an entry for every base id absent from the
extended list, and its `find_added_assets` (given the enrichment keys its body
reads) still returns an enriched entry for every extended id absent from the
base list. -/
theorem C6_amended_length_guard (E B : List Asset) (h : E.length < B.length) :
    AzTierSyncer.find_added_assets E B = .error .fatalExit ∧
    AzTierSyncer.find_removed_assets E B = .error .fatalExit ∧
    AzTierSyncer.find_modified_assets E B = .error .fatalExit ∧
    (∀ b ∈ B, Asset.idD b ∉ E.map Asset.idD →
      ∃ a ∈ AzTierWatcher.find_removed_assets E B, Asset.idD a = Asset.idD b) ∧
    (∀ date : String,
      (∀ e ∈ E, (Asset.get? e "id").isSome ∧ (Asset.get? e "name").isSome ∧
        (Asset.get? e "type").isSome ∧ (Asset.get? e "scope").isSome ∧
        (Asset.get? e "definition").isSome ∧ (Asset.get? e "documentation").isSome) →
      ∃ l, AzTierWatcher.find_added_assets date E B = .ok l ∧
        ∀ e ∈ E, Asset.idD e ∉ B.map Asset.idD →
          ∃ x ∈ l, Asset.get? x "id" = some (Asset.idD e)) := by
  refine ⟨by simp [AzTierSyncer.find_added_assets, h],
    by simp [AzTierSyncer.find_removed_assets, h],
    by simp [AzTierSyncer.find_modified_assets, h], ?_, ?_⟩
  · intro b hb hnot
    have hc : ((E.map Asset.idD).contains (Asset.idD b)) = false := by
      rw [Bool.eq_false_iff]
      intro hcc
      exact hnot (List.elem_iff.mp hcc)
    have hid : Asset.idD b ∈ (B.map Asset.idD).filter
        (fun i => !((E.map Asset.idD).contains i)) :=
      List.mem_filter.mpr ⟨List.mem_map_of_mem _ hb, by rw [hc]; rfl⟩
    rcases diff_pick_spec B (Asset.idD b) (List.mem_map_of_mem _ hb) with ⟨a, hpick, -, hai⟩
    refine ⟨a, ?_, hai⟩
    unfold AzTierWatcher.find_removed_assets
    exact List.mem_filterMap.mpr ⟨Asset.idD b, hid, hpick⟩
  · intro date hkeys
    have hpicksE : ∀ a ∈ ((E.map Asset.idD).filter
        (fun i => !((B.map Asset.idD).contains i))).filterMap
        (fun i => (E.filter (fun x => Asset.idD x == i)).head?), a ∈ E :=
      fun a ha => (mem_diff_result E _ a ha).1
    rcases mapM_enrich_ok date
        (((E.map Asset.idD).filter
          (fun i => !((B.map Asset.idD).contains i))).filterMap
          (fun i => (E.filter (fun x => Asset.idD x == i)).head?))
        (fun a ha => hkeys a (hpicksE a ha)) with ⟨out, hout, hmem⟩
    refine ⟨out, ?_, ?_⟩
    · show (((E.map Asset.idD).filter
          (fun i => !((B.map Asset.idD).contains i))).filterMap
          (fun i => (E.filter (fun x => Asset.idD x == i)).head?)).mapM
          (AzTierWatcher.enrich_added_asset date) = .ok out
      exact hout
    · intro e heE hnotB
      have hc : ((B.map Asset.idD).contains (Asset.idD e)) = false := by
        rw [Bool.eq_false_iff]
        intro hcc
        exact hnotB (List.elem_iff.mp hcc)
      have hid : Asset.idD e ∈ (E.map Asset.idD).filter
          (fun i => !((B.map Asset.idD).contains i)) :=
        List.mem_filter.mpr ⟨List.mem_map_of_mem _ heE, by rw [hc]; rfl⟩
      rcases diff_pick_spec E (Asset.idD e) (List.mem_map_of_mem _ heE) with
        ⟨a, hpick, -, hai⟩
      have hapicks : a ∈ ((E.map Asset.idD).filter
          (fun i => !((B.map Asset.idD).contains i))).filterMap
          (fun i => (E.filter (fun x => Asset.idD x == i)).head?) :=
        List.mem_filterMap.mpr ⟨Asset.idD e, hid, hpick⟩
      rcases hmem a hapicks with ⟨x, hxout, hxid⟩
      exact ⟨x, hxout, by rw [hxid, hai]⟩

/-- Witness for C6 at a concrete length-violating input (one extended asset,
two base assets). -/
theorem C6_witness :
    AzTierSyncer.find_added_assets
        [[("id", "e1"), ("name", "n"), ("type", "t"), ("scope", "s"),
          ("definition", "d"), ("documentation", "u")]]
        [[("id", "b1")], [("id", "b2")]] = .error .fatalExit ∧
    AzTierSyncer.find_removed_assets
        [[("id", "e1"), ("name", "n"), ("type", "t"), ("scope", "s"),
          ("definition", "d"), ("documentation", "u")]]
        [[("id", "b1")], [("id", "b2")]] = .error .fatalExit ∧
    AzTierSyncer.find_modified_assets
        [[("id", "e1"), ("name", "n"), ("type", "t"), ("scope", "s"),
          ("definition", "d"), ("documentation", "u")]]
        [[("id", "b1")], [("id", "b2")]] = .error .fatalExit ∧
    (∀ b ∈ ([[("id", "b1")], [("id", "b2")]] : List Asset),
      Asset.idD b ∉ ([[("id", "e1"), ("name", "n"), ("type", "t"), ("scope", "s"),
        ("definition", "d"), ("documentation", "u")]] : List Asset).map Asset.idD →
      ∃ a ∈ AzTierWatcher.find_removed_assets
        [[("id", "e1"), ("name", "n"), ("type", "t"), ("scope", "s"),
          ("definition", "d"), ("documentation", "u")]]
        [[("id", "b1")], [("id", "b2")]], Asset.idD a = Asset.idD b) ∧
    (∀ date : String,
      (∀ e ∈ ([[("id", "e1"), ("name", "n"), ("type", "t"), ("scope", "s"),
          ("definition", "d"), ("documentation", "u")]] : List Asset),
        (Asset.get? e "id").isSome ∧ (Asset.get? e "name").isSome ∧
        (Asset.get? e "type").isSome ∧ (Asset.get? e "scope").isSome ∧
        (Asset.get? e "definition").isSome ∧ (Asset.get? e "documentation").isSome) →
      ∃ l, AzTierWatcher.find_added_assets date
          [[("id", "e1"), ("name", "n"), ("type", "t"), ("scope", "s"),
            ("definition", "d"), ("documentation", "u")]]
          [[("id", "b1")], [("id", "b2")]] = .ok l ∧
        ∀ e ∈ ([[("id", "e1"), ("name", "n"), ("type", "t"), ("scope", "s"),
            ("definition", "d"), ("documentation", "u")]] : List Asset),
          Asset.idD e ∉ ([[("id", "b1")], [("id", "b2")]] : List Asset).map Asset.idD →
          ∃ x ∈ l, Asset.get? x "id" = some (Asset.idD e)) :=
  C6_amended_length_guard
    [[("id", "e1"), ("name", "n"), ("type", "t"), ("scope", "s"),
      ("definition", "d"), ("documentation", "u")]]
    [[("id", "b1")], [("id", "b2")]] (by decide)

/-! ## C9: complementarity of added/removed -/

/-- C9: for all keyed lists with `len(B) ≤ len(E)`, the Syncer's
`find_added_assets` and `find_removed_assets` succeed, the id set of the added
result united with the common ids equals E's id set, and the id set of the
removed result united with the common ids equals B's id set. -/
theorem C9_added_removed_complementary (E B : List Asset) (h : B.length ≤ E.length) :
    ∃ added removed,
      AzTierSyncer.find_added_assets E B = .ok added ∧
      AzTierSyncer.find_removed_assets E B = .ok removed ∧
      (∀ s, (s ∈ added.map Asset.idD ∨ (s ∈ B.map Asset.idD ∧ s ∈ E.map Asset.idD)) ↔
        s ∈ E.map Asset.idD) ∧
      (∀ s, (s ∈ removed.map Asset.idD ∨ (s ∈ B.map Asset.idD ∧ s ∈ E.map Asset.idD)) ↔
        s ∈ B.map Asset.idD) := by
  have hnlt : ¬ E.length < B.length := not_lt.mpr h
  refine ⟨_, _, by rw [AzTierSyncer.find_added_assets, if_neg hnlt],
    by rw [AzTierSyncer.find_removed_assets, if_neg hnlt], ?_, ?_⟩
  · intro s
    exact diff_id_complement E B s
  · intro s
    have := diff_id_complement B E s
    rw [@and_comm (s ∈ E.map Asset.idD) _] at this
    exact this

/-- Witness for C9 at a concrete pair of lists. -/
theorem C9_witness :
    ∃ added removed,
      AzTierSyncer.find_added_assets [[("id", "a")], [("id", "b")]] [[("id", "b")]] =
        .ok added ∧
      AzTierSyncer.find_removed_assets [[("id", "a")], [("id", "b")]] [[("id", "b")]] =
        .ok removed ∧
      (∀ s, (s ∈ added.map Asset.idD ∨
          (s ∈ ([[("id", "b")]] : List Asset).map Asset.idD ∧
            s ∈ ([[("id", "a")], [("id", "b")]] : List Asset).map Asset.idD)) ↔
        s ∈ ([[("id", "a")], [("id", "b")]] : List Asset).map Asset.idD) ∧
      (∀ s, (s ∈ removed.map Asset.idD ∨
          (s ∈ ([[("id", "b")]] : List Asset).map Asset.idD ∧
            s ∈ ([[("id", "a")], [("id", "b")]] : List Asset).map Asset.idD)) ↔
        s ∈ ([[("id", "b")]] : List Asset).map Asset.idD) :=
  C9_added_removed_complementary [[("id", "a")], [("id", "b")]] [[("id", "b")]] (by decide)

/-! ## C2: find_modified_assets -/

theorem find_modified_go_ok (E : List Asset) : ∀ B : List Asset,
    (∀ b ∈ B, ∃ e ∈ E, Asset.idD e = Asset.idD b) →
    AzTierSyncer.find_modified_go E B = .ok (B.flatMap (fun b =>
      match E.find? (fun a => Asset.idD a == Asset.idD b) with
      | none => []
      | some e => List.replicate (AzTierSyncer.sharedDiffKeys e b).length b)) := by
  intro B
  induction B with
  | nil => intro _; rfl
  | cons b rest ih =>
    intro hmatch
    rcases hmatch b (by simp) with ⟨e0, he0, hid⟩
    have hEne : E.isEmpty = false := by
      cases E with
      | nil => exact absurd he0 (List.not_mem_nil e0)
      | cons _ _ => rfl
    have hfind : ∃ e, E.find? (fun a => Asset.idD a == Asset.idD b) = some e := by
      cases hf : E.find? (fun a => Asset.idD a == Asset.idD b) with
      | none => exact absurd (List.find?_eq_none.mp hf e0 he0) (by simp [hid])
      | some e => exact ⟨e, rfl⟩
    rcases hfind with ⟨e, he⟩
    have hrec := ih (fun x hx => hmatch x (by simp [hx]))
    rw [AzTierSyncer.find_modified_go, hEne]
    simp only [Bool.false_eq_true, if_false, he, hrec, List.flatMap_cons]

theorem find_modified_go_error (E : List Asset) (hE : E ≠ []) : ∀ B : List Asset,
    (∃ b ∈ B, ∀ e ∈ E, Asset.idD e ≠ Asset.idD b) →
    AzTierSyncer.find_modified_go E B = .error .attributeError := by
  intro B
  induction B with
  | nil => rintro ⟨b, hb, -⟩; exact absurd hb (List.not_mem_nil b)
  | cons b rest ih =>
    rintro ⟨w, hw, hwid⟩
    have hEne : E.isEmpty = false := by
      cases E with
      | nil => exact absurd rfl hE
      | cons _ _ => rfl
    rcases List.mem_cons.mp hw with hwb | hwrest
    · subst hwb
      have hnone : E.find? (fun a => Asset.idD a == Asset.idD w) = none :=
        List.find?_eq_none.mpr (fun a ha => by simpa using hwid a ha)
      rw [AzTierSyncer.find_modified_go, hEne]
      simp only [Bool.false_eq_true, if_false, hnone]
    · cases hf : E.find? (fun a => Asset.idD a == Asset.idD b) with
      | none =>
        rw [AzTierSyncer.find_modified_go, hEne]
        simp only [Bool.false_eq_true, if_false, hf]
      | some e =>
        have hrec := ih ⟨w, hwrest, hwid⟩
        rw [AzTierSyncer.find_modified_go, hEne]
        simp only [Bool.false_eq_true, if_false, hf, hrec]

theorem find_modified_mem (E : List Asset) : ∀ (B ms : List Asset),
    AzTierSyncer.find_modified_go E B = .ok ms → ∀ m ∈ ms, m ∈ B := by
  intro B
  induction B with
  | nil =>
    intro ms h m hm
    cases h
    exact absurd hm (List.not_mem_nil m)
  | cons b rest ih =>
    intro ms h m hm
    rw [AzTierSyncer.find_modified_go] at h
    by_cases hEe : E.isEmpty
    · rw [hEe] at h
      simp only [if_true] at h
      exact List.mem_cons_of_mem _ (ih ms h m hm)
    · rw [Bool.not_eq_true] at hEe
      rw [hEe] at h
      simp only [Bool.false_eq_true, if_false] at h
      cases hf : E.find? (fun a => Asset.idD a == Asset.idD b) with
      | none => rw [hf] at h; cases h
      | some e =>
        rw [hf] at h
        cases hrec : AzTierSyncer.find_modified_go E rest with
        | error e' => rw [hrec] at h; cases h
        | ok l =>
          rw [hrec] at h
          cases h
          rcases List.mem_append.mp hm with hrep | hl
          · rw [List.eq_of_mem_replicate hrep]
            exact List.mem_cons_self b rest
          · exact List.mem_cons_of_mem _ (ih l hrec m hl)

/-- C2, counterexample: one base asset matched by id in the extended list with
two differing shared fields (`f` and `g`).  `find_modified_assets` appends the
base asset once per differing field, returning two entries where the claim
says exactly one. -/
theorem C2_counterexample :
    AzTierSyncer.find_modified_assets [[("id", "a"), ("f", "1"), ("g", "2")]]
        [[("id", "a"), ("f", "x"), ("g", "y")]] =
      .ok [[("id", "a"), ("f", "x"), ("g", "y")], [("id", "a"), ("f", "x"), ("g", "y")]] ∧
    ([[("id", "a"), ("f", "x"), ("g", "y")],
      [("id", "a"), ("f", "x"), ("g", "y")]] : List Asset).length ≠ 1 := by
  exact ⟨by rfl, by decide⟩

/-- C2 (amended): under the length precondition, when every base id is matched
in the extended list, `find_modified_assets` returns — for each base asset, in
base order — one copy of the *base* asset per shared field whose value differs
(so an asset with k differing shared fields appears k times, and an asset whose
shared fields all agree contributes nothing); when the extended list is
nonempty and some base asset's id is absent from it, the function raises an
`AttributeError` (it calls `.keys()` on `None`) instead of returning. -/
theorem C2_amended_modified_semantics (E B : List Asset) (hlen : B.length ≤ E.length) :
    ((∀ b ∈ B, ∃ e ∈ E, Asset.idD e = Asset.idD b) →
      AzTierSyncer.find_modified_assets E B =
        .ok (B.flatMap (fun b =>
          match E.find? (fun a => Asset.idD a == Asset.idD b) with
          | none => []
          | some e => List.replicate (AzTierSyncer.sharedDiffKeys e b).length b))) ∧
    ((∃ b ∈ B, ∀ e ∈ E, Asset.idD e ≠ Asset.idD b) → E ≠ [] →
      AzTierSyncer.find_modified_assets E B = .error .attributeError) := by
  have hnlt : ¬ E.length < B.length := not_lt.mpr hlen
  constructor
  · intro hmatch
    rw [AzTierSyncer.find_modified_assets, if_neg hnlt]
    exact find_modified_go_ok E B hmatch
  · intro hex hE
    rw [AzTierSyncer.find_modified_assets, if_neg hnlt]
    exact find_modified_go_error E hE B hex

/-- Witness for C2 on a matched pair with one differing shared field. -/
theorem C2_witness :
    AzTierSyncer.find_modified_assets [[("id", "a"), ("tier", "1")]]
        [[("id", "a"), ("tier", "2")]] =
      .ok (([[("id", "a"), ("tier", "2")]] : List Asset).flatMap (fun b =>
        match ([[("id", "a"), ("tier", "1")]] : List Asset).find?
            (fun a => Asset.idD a == Asset.idD b) with
        | none => []
        | some e => List.replicate (AzTierSyncer.sharedDiffKeys e b).length b)) :=
  (C2_amended_modified_semantics [[("id", "a"), ("tier", "1")]]
    [[("id", "a"), ("tier", "2")]] (by decide)).1 (by decide)

/-! ## C7: the untiered file is append-only -/

/-- C7: updating the untiered file never deletes an existing entry; the result
is a permutation of the old content plus exactly those added assets whose id
was not already present, sorted by `detectedOn` descending, and the boolean
result is `true` iff at least one entry was appended.  The key-presence
hypotheses record that the source would raise `KeyError` on entries without
`id`/`detectedOn`. -/
theorem C7_update_untiered_append_only (U A : List Asset)
    (_hU : ∀ a ∈ U, (Asset.get? a "id").isSome ∧ (Asset.get? a "detectedOn").isSome)
    (_hA : ∀ a ∈ A, (Asset.get? a "id").isSome ∧ (Asset.get? a "detectedOn").isSome) :
    (∀ u ∈ U, u ∈ (AzTierWatcher.update_untiered_assets U A).1) ∧
    (AzTierWatcher.update_untiered_assets U A).1.Perm
      (U ++ A.filter (fun a => !((U.map Asset.idD).contains (Asset.idD a)))) ∧
    (AzTierWatcher.update_untiered_assets U A).1.Pairwise
      (fun x y => Asset.detectedOnD y ≤ Asset.detectedOnD x) ∧
    ((AzTierWatcher.update_untiered_assets U A).2 = true ↔
      ∃ a ∈ A, Asset.idD a ∉ U.map Asset.idD) := by
  have hperm : (AzTierWatcher.update_untiered_assets U A).1.Perm
      (U ++ A.filter (fun a => !((U.map Asset.idD).contains (Asset.idD a)))) :=
    List.mergeSort_perm _ _
  refine ⟨?_, hperm, ?_, ?_⟩
  · intro u hu
    exact hperm.mem_iff.mpr (List.mem_append_left _ hu)
  · have hs := @List.sorted_mergeSort Asset
      (fun x y : Asset => decide (Asset.detectedOnD y ≤ Asset.detectedOnD x))
      (fun a b c hab hbc =>
        decide_eq_true (le_trans (of_decide_eq_true hbc) (of_decide_eq_true hab)))
      (fun a b => by
        rcases le_total (Asset.detectedOnD b) (Asset.detectedOnD a) with hle | hle
        · simp [hle]
        · simp [hle])
      (U ++ A.filter (fun a => !((U.map Asset.idD).contains (Asset.idD a))))
    exact hs.imp (fun h => of_decide_eq_true h)
  · rw [show (AzTierWatcher.update_untiered_assets U A).2 =
        decide (0 < (A.filter
          (fun a => !((U.map Asset.idD).contains (Asset.idD a)))).length) from rfl]
    rw [decide_eq_true_iff, List.length_pos]
    constructor
    · intro hne
      rcases List.exists_mem_of_ne_nil _ hne with ⟨a, ha⟩
      rcases List.mem_filter.mp ha with ⟨haA, hpred⟩
      refine ⟨a, haA, fun hmem => ?_⟩
      rw [Bool.not_eq_true'] at hpred
      have helem : ((U.map Asset.idD).contains (Asset.idD a)) = true :=
        List.elem_iff.mpr hmem
      rw [hpred] at helem
      cases helem
    · rintro ⟨a, haA, hnot⟩
      intro hemp
      have hc : ((U.map Asset.idD).contains (Asset.idD a)) = false := by
        rw [Bool.eq_false_iff]
        intro hcc
        exact hnot (List.elem_iff.mp hcc)
      have hmem : a ∈ A.filter (fun a => !((U.map Asset.idD).contains (Asset.idD a))) :=
        List.mem_filter.mpr ⟨haA, by rw [hc]; rfl⟩
      rw [hemp] at hmem
      exact absurd hmem (List.not_mem_nil a)

/-- Witness for C7 at a concrete file content and added list. -/
theorem C7_witness :
    (∀ u ∈ ([[("id", "u1"), ("detectedOn", "2024-01-01")]] : List Asset),
      u ∈ (AzTierWatcher.update_untiered_assets
        [[("id", "u1"), ("detectedOn", "2024-01-01")]]
        [[("id", "u2"), ("detectedOn", "2025-02-02")]]).1) ∧
    (AzTierWatcher.update_untiered_assets
        [[("id", "u1"), ("detectedOn", "2024-01-01")]]
        [[("id", "u2"), ("detectedOn", "2025-02-02")]]).1.Perm
      ([[("id", "u1"), ("detectedOn", "2024-01-01")]] ++
        ([[("id", "u2"), ("detectedOn", "2025-02-02")]] : List Asset).filter
          (fun a => !((([[("id", "u1"), ("detectedOn", "2024-01-01")]] : List Asset).map
            Asset.idD).contains (Asset.idD a)))) ∧
    (AzTierWatcher.update_untiered_assets
        [[("id", "u1"), ("detectedOn", "2024-01-01")]]
        [[("id", "u2"), ("detectedOn", "2025-02-02")]]).1.Pairwise
      (fun x y => Asset.detectedOnD y ≤ Asset.detectedOnD x) ∧
    ((AzTierWatcher.update_untiered_assets
        [[("id", "u1"), ("detectedOn", "2024-01-01")]]
        [[("id", "u2"), ("detectedOn", "2025-02-02")]]).2 = true ↔
      ∃ a ∈ ([[("id", "u2"), ("detectedOn", "2025-02-02")]] : List Asset),
        Asset.idD a ∉ ([[("id", "u1"), ("detectedOn", "2024-01-01")]] : List Asset).map
          Asset.idD) :=
  C7_update_untiered_append_only
    [[("id", "u1"), ("detectedOn", "2024-01-01")]]
    [[("id", "u2"), ("detectedOn", "2025-02-02")]]
    (by decide) (by decide)

/-! ## C3: a bad top-level batch status crashes instead of returning None -/

/-- C3: when the top-level batch POST answers with a status that is neither 200
nor 202, `handle_asynchronous_http_responses` returns `None`, and the chunk
loop of `send_batch_request_to_arm` immediately iterates over that `None`
(`successful_responses = [response for response in asynchronous_responses ...]`),
raising an uncaught `TypeError`.  The function therefore crashes the process;
it never returns the `None` failure signal its callers test with `is None`, and
no partial data is returned either. -/
theorem C3_crash_on_bad_top_level_status (s : Int) (h200 : s ≠ 200) (h202 : s ≠ 202)
    (req : BatchClient.BatchRequest) (b : BatchClient.Body) (ra : Option Int)
    (loc : Option String) (posts1 gets : List BatchClient.HttpResponse) :
    BatchClient.send_batch_request_to_arm 1
      ⟨{status_code := s, retryAfter := ra, location := loc, body := b} :: posts1, gets⟩
      [req] =
      some (.error .typeError, [⟨[some req], []⟩]) := by
  have hb202 : (s == 202) = false := by
    rw [beq_eq_false_iff_ne]
    exact h202
  have hb200 : (s == 200) = false := by
    rw [beq_eq_false_iff_ne]
    exact h200
  rw [BatchClient.send_batch_request_to_arm]
  have hchunks : BatchClient.pyChunks [req] = [[req]] := by
    rw [BatchClient.pyChunks]
    rw [List.take_of_length_le (by simp [BatchClient.batch_request_size_limit])]
    rw [List.drop_eq_nil_of_le (by simp [BatchClient.batch_request_size_limit])]
    rw [BatchClient.pyChunks]
  rw [hchunks]
  rw [BatchClient.send_batch_go, BatchClient.process_chunk]
  simp [BatchClient.handle_asynchronous_http_responses, hb202, hb200]

/-- Witness for C3 at status 400. -/
theorem C3_witness :
    BatchClient.send_batch_request_to_arm 1
      ⟨[{status_code := 400, retryAfter := none, location := none, body := {}}], []⟩
      [{name := some "r1"}] =
      some (.error .typeError, [⟨[some {name := some "r1"}], []⟩]) :=
  C3_crash_on_bad_top_level_status 400 (by decide) (by decide)
    {name := some "r1"} {} none none [] []

/-! ## C5: a 202 on a continuation page hangs the handler -/

/-- The inner wait loop of the pagination branch can never terminate once
entered with status 202: its body only sleeps and never re-issues the
request. -/
theorem wait_for_next_page_202 : ∀ fuel : Nat, BatchClient.wait_for_next_page fuel 202 = none := by
  intro fuel
  induction fuel with
  | zero => rfl
  | succ n ih => rw [BatchClient.wait_for_next_page]; simpa using ih

/-- C5: the spec's own scenario — a batch POST answered 202 with `Location` L
and `Retry-After` 20; a GET to L first returns 202 again, then 200 with a
`value` page and `nextLink` L2; the GET to L2 first answers 202.  The claim
says the client keeps polling the continuation until it returns 200 and then
returns the concatenation of both pages' `value` arrays; the code instead
enters `while next_page_response.status_code == 202: time.sleep(...)`, whose
body never re-issues the request, so the handler never completes, for any
amount of fuel. -/
theorem C5_continuation_202_never_completes (fuel : Nat) :
    BatchClient.handle_asynchronous_http_responses fuel
      [{status_code := 202},
       {status_code := 200,
        body := {value := some [{name := some "p1"}], nextLink := some "L2"}},
       {status_code := 202},
       {status_code := 200, body := {value := some [{name := some "p2"}]}}]
      {status_code := 202, retryAfter := some 20, location := some "L"} = none := by
  match fuel with
  | 0 => rfl
  | 1 => rfl
  | 2 => rfl
  | (n + 3) =>
    simp [BatchClient.handle_asynchronous_http_responses, BatchClient.poll_until_ready,
      BatchClient.retrieve_next_pages, wait_for_next_page_202]

/-! ## C8: chunking and the submission bound -/

theorem collect_list_length (chunk : List BatchClient.BatchRequest) :
    ∀ (rs : List BatchClient.ItemResp) (l : List (Option BatchClient.BatchRequest)),
    BatchClient.collect_list chunk rs = .ok l → l.length = rs.length := by
  intro rs
  induction rs with
  | nil =>
    intro l h
    cases h
    rfl
  | cons r rest ih =>
    intro l h
    rw [BatchClient.collect_list] at h
    cases h1 : BatchClient.collect_one chunk r with
    | error e => rw [h1] at h; cases h
    | ok req =>
      rw [h1] at h
      cases h2 : BatchClient.collect_list chunk rest with
      | error e => rw [h2] at h; cases h
      | ok l2 =>
        rw [h2] at h
        cases h
        simp [ih l2 h2]

theorem three_filter_length (rs : List BatchClient.ItemResp) :
    (rs.filter (fun r => r.httpStatusCode == 500)).length
      + (rs.filter (fun r => r.httpStatusCode == 503)).length
      + (rs.filter (fun r => r.httpStatusCode == 429)).length ≤ rs.length := by
  induction rs with
  | nil => simp
  | cons r rest ih =>
    simp only [List.filter_cons, List.length_cons]
    cases h1 : (r.httpStatusCode == 500) with
    | true =>
      have he : r.httpStatusCode = 500 := beq_iff_eq.mp h1
      have h2 : (r.httpStatusCode == 503) = false := by rw [he]; decide
      have h3 : (r.httpStatusCode == 429) = false := by rw [he]; decide
      simp only [h2, h3, Bool.false_eq_true, if_true, if_false, List.length_cons]
      omega
    | false =>
      cases h2 : (r.httpStatusCode == 503) with
      | true =>
        have he : r.httpStatusCode = 503 := beq_iff_eq.mp h2
        have h3 : (r.httpStatusCode == 429) = false := by rw [he]; decide
        simp only [h3, Bool.false_eq_true, if_true, if_false, List.length_cons]
        omega
      | false =>
        cases h3 : (r.httpStatusCode == 429) with
        | true =>
          simp only [Bool.false_eq_true, if_true, if_false, List.length_cons]
          omega
        | false =>
          simp only [Bool.false_eq_true, if_false]
          omega

theorem analyze_remaining_length (chunk : List BatchClient.BatchRequest)
    (rs : List BatchClient.ItemResp) (succ : List BatchClient.ItemResp)
    (rem1 : List (Option BatchClient.BatchRequest)) (sleep : Option ℚ)
    (h : BatchClient.analyze_chunk_round chunk rs = .ok (succ, rem1, sleep)) :
    rem1.length ≤ rs.length := by
  rw [BatchClient.analyze_chunk_round] at h
  cases hc : BatchClient.collect_retry_requests chunk rs with
  | error e => rw [hc] at h; cases h
  | ok rem =>
    rw [hc] at h
    cases h
    rw [BatchClient.collect_retry_requests] at hc
    have hlen := collect_list_length chunk _ _ hc
    rw [List.length_append, List.length_append] at hlen
    have hthree := three_filter_length rs
    omega

theorem roundCorrelated_items_le (r : BatchClient.Round)
    (h : BatchClient.roundCorrelated r) : r.items.length ≤ r.submitted.length := by
  rcases h with ⟨hlen, hnodup, hsub⟩
  have h1 : (r.items.filterMap BatchClient.ItemResp.name).length ≤
      (r.submitted.filterMap (fun o => o.bind BatchClient.BatchRequest.name)).length :=
    (hnodup.subperm (fun nm hnm => hsub nm hnm)).length_le
  have h2 := List.length_filterMap_le (fun o : Option BatchClient.BatchRequest =>
    o.bind BatchClient.BatchRequest.name) r.submitted
  omega

theorem process_chunk_rounds_mono (chunk : List BatchClient.BatchRequest) :
    ∀ (fuel : Nat) (net : BatchClient.NetScript) rem comp rnds out net1 rounds,
      BatchClient.process_chunk chunk fuel net rem comp rnds = some (out, net1, rounds) →
      ∀ r ∈ rnds, r ∈ rounds := by
  intro fuel
  induction fuel with
  | zero =>
    intro net rem comp rnds out net1 rounds h
    cases h
  | succ n ih =>
    intro net rem comp rnds out net1 rounds h
    rw [BatchClient.process_chunk] at h
    split at h
    · cases h
      exact fun r hr => hr
    · split at h
      · cases h
      · split at h
        · cases h
        · cases h
          exact fun r hr => List.mem_append_left _ hr
        · split at h
          · cases h
            exact fun r hr => List.mem_append_left _ hr
          · split at h
            · exact fun r hr => ih _ _ _ _ _ _ _ h r (List.mem_append_left _ hr)
            · cases h
              exact fun r hr => List.mem_append_left _ hr
          · split at h
            · cases h
              exact fun r hr => List.mem_append_left _ hr
            · exact fun r hr => ih _ _ _ _ _ _ _ h r (List.mem_append_left _ hr)


theorem process_chunk_submitted_le (chunk : List BatchClient.BatchRequest) :
    ∀ (fuel : Nat) (net : BatchClient.NetScript) rem comp rnds out net1 rounds,
      BatchClient.process_chunk chunk fuel net rem comp rnds = some (out, net1, rounds) →
      rem.length ≤ 500 →
      (∀ r ∈ rounds, BatchClient.roundCorrelated r) →
      (∀ r ∈ rnds, r.submitted.length ≤ 500) →
      ∀ r ∈ rounds, r.submitted.length ≤ 500 := by
  intro fuel
  induction fuel with
  | zero =>
    intro net rem comp rnds out net1 rounds h
    cases h
  | succ n ih =>
    intro net rem comp rnds out net1 rounds h hrem hcorr hrnds
    rw [BatchClient.process_chunk] at h
    split at h
    · cases h
      exact hrnds
    · split at h
      · cases h
      · split at h
        · cases h
        · cases h
          intro r hr
          rcases List.mem_append.mp hr with h1 | h2
          · exact hrnds r h1
          · have hr2 := List.mem_singleton.mp h2
            subst hr2
            exact hrem
        · split at h
          · cases h
            intro r hr
            rcases List.mem_append.mp hr with h1 | h2
            · exact hrnds r h1
            · have hr2 := List.mem_singleton.mp h2
              subst hr2
              exact hrem
          · split at h
            · refine ih _ _ _ _ _ _ _ h (by simp) hcorr ?_
              intro r hr
              rcases List.mem_append.mp hr with h1 | h2
              · exact hrnds r h1
              · have hr2 := List.mem_singleton.mp h2
                subst hr2
                exact hrem
            · cases h
              intro r hr
              rcases List.mem_append.mp hr with h1 | h2
              · exact hrnds r h1
              · have hr2 := List.mem_singleton.mp h2
                subst hr2
                exact hrem
          · split at h
            · cases h
              intro r hr
              rcases List.mem_append.mp hr with h1 | h2
              · exact hrnds r h1
              · have hr2 := List.mem_singleton.mp h2
                subst hr2
                exact hrem
            · rename_i gets1 out1 rs heqh val succ1 rem1 sleep1 heq
              have hmemround : (⟨rem, rs⟩ : BatchClient.Round) ∈ rounds :=
                process_chunk_rounds_mono chunk n _ _ _ _ _ _ _ h _
                  (List.mem_append_right _ (List.mem_singleton_self _))
              have hc := hcorr _ hmemround
              have hitems : rs.length ≤ rem.length := roundCorrelated_items_le _ hc
              have hrem1 : rem1.length ≤ rs.length :=
                analyze_remaining_length chunk rs succ1 rem1 sleep1 heq
              refine ih _ _ _ _ _ _ _ h (by omega) hcorr ?_
              intro r hr
              rcases List.mem_append.mp hr with h1 | h2
              · exact hrnds r h1
              · have hr2 := List.mem_singleton.mp h2
                subst hr2
                exact hrem

theorem send_batch_go_rounds_mono :
    ∀ (chunks : List (List BatchClient.BatchRequest)) (fuel : Nat)
      (net : BatchClient.NetScript) comp rnds out rounds,
      BatchClient.send_batch_go fuel chunks net comp rnds = some (out, rounds) →
      ∀ r ∈ rnds, r ∈ rounds := by
  intro chunks
  induction chunks with
  | nil =>
    intro fuel net comp rnds out rounds h
    cases h
    exact fun r hr => hr
  | cons c cs ih =>
    intro fuel net comp rnds out rounds h
    rw [BatchClient.send_batch_go] at h
    split at h
    · cases h
    · rename_i e net2 rounds1 heq
      cases h
      exact fun r hr => process_chunk_rounds_mono c _ _ _ _ _ _ _ _ heq r hr
    · rename_i complete1 net2 rounds1 heq
      exact fun r hr =>
        ih _ _ _ _ _ _ h r (process_chunk_rounds_mono c _ _ _ _ _ _ _ _ heq r hr)

theorem send_batch_go_submitted_le :
    ∀ (chunks : List (List BatchClient.BatchRequest)) (fuel : Nat)
      (net : BatchClient.NetScript) comp rnds out rounds,
      BatchClient.send_batch_go fuel chunks net comp rnds = some (out, rounds) →
      (∀ c ∈ chunks, c.length ≤ 500) →
      (∀ r ∈ rounds, BatchClient.roundCorrelated r) →
      (∀ r ∈ rnds, r.submitted.length ≤ 500) →
      ∀ r ∈ rounds, r.submitted.length ≤ 500 := by
  intro chunks
  induction chunks with
  | nil =>
    intro fuel net comp rnds out rounds h hchunks hcorr hrnds
    cases h
    exact hrnds
  | cons c cs ih =>
    intro fuel net comp rnds out rounds h hchunks hcorr hrnds
    rw [BatchClient.send_batch_go] at h
    split at h
    · cases h
    · rename_i e net2 rounds1 heq
      cases h
      refine process_chunk_submitted_le c _ _ _ _ _ _ _ _ heq ?_ hcorr hrnds
      simpa using hchunks c (by simp)
    · rename_i complete1 net2 rounds1 heq
      have hmono : ∀ r ∈ rounds1, r ∈ rounds := fun r hr =>
        send_batch_go_rounds_mono cs _ _ _ _ _ _ h r hr
      have h1 : ∀ r ∈ rounds1, r.submitted.length ≤ 500 := by
        refine process_chunk_submitted_le c _ _ _ _ _ _ _ _ heq ?_
          (fun r hr => hcorr r (hmono r hr)) hrnds
        simpa using hchunks c (by simp)
      exact ih _ _ _ _ _ _ h (fun d hd => hchunks d (by simp [hd])) hcorr h1

theorem pyChunks_flatten (l : List α) : (BatchClient.pyChunks l).flatten = l := by
  induction l using BatchClient.pyChunks.induct with
  | case1 => rw [BatchClient.pyChunks]; rfl
  | case2 x xs ih =>
    rw [BatchClient.pyChunks]
    rw [List.flatten_cons, ih, List.take_append_drop]

theorem pyChunks_length_le (l : List α) :
    ∀ c ∈ BatchClient.pyChunks l, c.length ≤ 500 := by
  induction l using BatchClient.pyChunks.induct with
  | case1 =>
    intro c hc
    rw [BatchClient.pyChunks] at hc
    exact absurd hc (List.not_mem_nil c)
  | case2 x xs ih =>
    intro c hc
    rw [BatchClient.pyChunks] at hc
    rcases List.mem_cons.mp hc with h1 | h2
    · subst h1
      calc ((x :: xs).take BatchClient.batch_request_size_limit).length
          ≤ BatchClient.batch_request_size_limit := by
            rw [List.length_take]
            exact min_le_left _ _
        _ = 500 := rfl
    · exact ih c h2

/-- C8: the chunking comprehension partitions the request list into
consecutive sublists whose concatenation is the original list, each at most
500 long; and — under the batch endpoint's correlation guarantee, that each
round's response items carry pairwise-distinct names taken from that round's
submitted requests — every submission recorded in the trace of a completed
`send_batch_request_to_arm` run (the initial chunk as well as every retried
subset) has at most 500 requests. -/
theorem C8_chunking_and_submission_bound (reqs : List BatchClient.BatchRequest)
    (fuel : Nat) (net : BatchClient.NetScript)
    (res : Except PyErr (List BatchClient.ItemResp)) (rounds : List BatchClient.Round)
    (hrun : BatchClient.send_batch_request_to_arm fuel net reqs = some (res, rounds))
    (hcorr : ∀ r ∈ rounds, BatchClient.roundCorrelated r) :
    (BatchClient.pyChunks reqs).flatten = reqs ∧
    (∀ c ∈ BatchClient.pyChunks reqs, c.length ≤ 500) ∧
    (∀ r ∈ rounds, r.submitted.length ≤ 500) := by
  refine ⟨pyChunks_flatten reqs, pyChunks_length_le reqs, ?_⟩
  rw [BatchClient.send_batch_request_to_arm] at hrun
  exact send_batch_go_submitted_le _ _ _ _ _ _ _ hrun (pyChunks_length_le reqs) hcorr
    (fun r hr => absurd hr (List.not_mem_nil r))

/-- Witness for C8 on a one-request run answered synchronously. -/
theorem C8_witness :
    (BatchClient.pyChunks [({name := some "a"} : BatchClient.BatchRequest)]).flatten =
      [({name := some "a"} : BatchClient.BatchRequest)] ∧
    (∀ c ∈ BatchClient.pyChunks [({name := some "a"} : BatchClient.BatchRequest)],
      c.length ≤ 500) ∧
    (∀ r ∈ [(⟨[some {name := some "a"}],
        [{name := some "a", httpStatusCode := 200}]⟩ : BatchClient.Round)],
      r.submitted.length ≤ 500) :=
  C8_chunking_and_submission_bound [{name := some "a"}] 2
    ⟨[{status_code := 200,
       body := {responses := some [{name := some "a", httpStatusCode := 200}]}}], []⟩
    (.ok [{name := some "a", httpStatusCode := 200}])
    [⟨[some {name := some "a"}], [{name := some "a", httpStatusCode := 200}]⟩]
    (by
      have hchunks : BatchClient.pyChunks
          [({name := some "a"} : BatchClient.BatchRequest)] = [[{name := some "a"}]] := by
        rw [BatchClient.pyChunks]
        rw [List.take_of_length_le (by simp [BatchClient.batch_request_size_limit])]
        rw [List.drop_eq_nil_of_le (by simp [BatchClient.batch_request_size_limit])]
        rw [BatchClient.pyChunks]
      rw [BatchClient.send_batch_request_to_arm, hchunks]
      rfl)
    (by decide)

/-! ## C1: custom assets under drift detection and sync -/

theorem syncer_removed_spec (E B rems : List Asset)
    (h : AzTierSyncer.find_removed_assets E B = .ok rems) :
    ∀ r ∈ rems, r ∈ B ∧ Asset.idD r ∉ E.map Asset.idD := by
  rw [AzTierSyncer.find_removed_assets] at h
  split at h
  · cases h
  · cases h
    intro r hr
    rcases mem_diff_result B _ r hr with ⟨hrB, hid⟩
    rcases List.mem_filter.mp hid with ⟨-, hpred⟩
    refine ⟨hrB, fun hc => ?_⟩
    rw [Bool.not_eq_true'] at hpred
    have hcc : ((E.map Asset.idD).contains (Asset.idD r)) = true := List.elem_iff.mpr hc
    rw [hpred] at hcc
    cases hcc

theorem watcher_removed_spec (E B : List Asset) :
    ∀ r ∈ AzTierWatcher.find_removed_assets E B,
      r ∈ B ∧ Asset.idD r ∉ E.map Asset.idD := by
  intro r hr
  rw [AzTierWatcher.find_removed_assets] at hr
  rcases mem_diff_result B _ r hr with ⟨hrB, hid⟩
  rcases List.mem_filter.mp hid with ⟨-, hpred⟩
  refine ⟨hrB, fun hc => ?_⟩
  rw [Bool.not_eq_true'] at hpred
  have hcc : ((E.map Asset.idD).contains (Asset.idD r)) = true := List.elem_iff.mpr hc
  rw [hpred] at hcc
  cases hcc

theorem mem_set_of_ne (l : List α) (i : Nat) (x y e : α)
    (hx : x ∈ l) (hy : l[i]? = some y) (hne : y ≠ x) : x ∈ l.set i e := by
  rcases List.mem_iff_getElem?.mp hx with ⟨j, hj⟩
  have hij : i ≠ j := by
    intro hh
    subst hh
    rw [hj] at hy
    cases hy
    exact hne rfl
  refine List.mem_iff_getElem?.mpr ⟨j, ?_⟩
  rw [List.getElem?_set_ne hij]
  exact hj

theorem pyEnumFindIdx_spec (p : α → Bool) :
    ∀ (l : List α) (i : Nat), pyEnumFindIdx p l = some i →
      ∃ y, l[i]? = some y ∧ p y = true := by
  intro l
  induction l with
  | nil =>
    intro i h
    cases h
  | cons a rest ih =>
    intro i h
    rw [pyEnumFindIdx] at h
    cases hpa : p a with
    | true =>
      rw [hpa] at h
      simp only [if_true] at h
      cases h
      exact ⟨a, by simp, hpa⟩
    | false =>
      rw [hpa] at h
      simp only [Bool.false_eq_true, if_false] at h
      cases hrec : pyEnumFindIdx p rest with
      | none => rw [hrec] at h; cases h
      | some j =>
        rw [hrec] at h
        simp only [Option.map_some'] at h
        cases h
        rcases ih j hrec with ⟨y, hy, hpy⟩
        exact ⟨y, by simpa using hy, hpy⟩

theorem sync_modified_step_preserves (aat : List Asset) (x m : Asset)
    (hne : Asset.idD m ≠ Asset.idD x) (cur out : List Asset)
    (h : AzTierSyncer.sync_modified_step aat cur m = .ok out) (hx : x ∈ cur) :
    x ∈ out := by
  rw [AzTierSyncer.sync_modified_step] at h
  split at h
  · cases h
    exact hx
  · split at h
    · cases h
    · split at h
      · cases h
      · rename_i type_enriched heqe index heqidx
        cases h
        rcases pyEnumFindIdx_spec _ cur index heqidx with ⟨y, hy, hpy⟩
        have hyne : y ≠ x := by
          intro hh
          subst hh
          exact hne (beq_iff_eq.mp hpy).symm
        exact mem_set_of_ne cur index x y _ hx hy hyne

theorem sync_modified_fold_preserves (aat : List Asset) (x : Asset) :
    ∀ (ms cur out : List Asset),
      List.foldlM (AzTierSyncer.sync_modified_step aat) cur ms = .ok out →
      (∀ m ∈ ms, Asset.idD m ≠ Asset.idD x) →
      x ∈ cur → x ∈ out := by
  intro ms
  induction ms with
  | nil =>
    intro cur out h _ hx
    rw [List.foldlM_nil] at h
    cases h
    exact hx
  | cons m rest ih =>
    intro cur out h hms hx
    rw [List.foldlM_cons] at h
    cases hstep : AzTierSyncer.sync_modified_step aat cur m with
    | error e =>
      rw [hstep] at h
      exact absurd h (by simp [Bind.bind, Except.bind])
    | ok cur1 =>
      rw [hstep] at h
      have hx1 : x ∈ cur1 :=
        sync_modified_step_preserves aat x m (hms m (by simp)) cur cur1 hstep hx
      refine ih cur1 out ?_ (fun m' hm' => hms m' (by simp [hm'])) hx1
      simpa [Bind.bind, Except.bind] using h

theorem find_modified_assets_mem (E B ms : List Asset)
    (h : AzTierSyncer.find_modified_assets E B = .ok ms) : ∀ m ∈ ms, m ∈ B := by
  rw [AzTierSyncer.find_modified_assets] at h
  split at h
  · cases h
  · exact find_modified_mem E B ms h

theorem sync_modified_phase_preserves (keep : Bool)
    (aat builtinLocal local1 out : List Asset) (x : Asset)
    (hb : ∀ m ∈ builtinLocal, Asset.idD m ≠ Asset.idD x)
    (h : AzTierSyncer.sync_modified_phase keep aat builtinLocal local1 = .ok out)
    (hx : x ∈ local1) : x ∈ out := by
  rw [AzTierSyncer.sync_modified_phase] at h
  split at h
  · cases h
    exact hx
  · split at h
    · cases h
    · rename_i modified heqm
      refine sync_modified_fold_preserves aat x modified local1 out h ?_ hx
      intro m hm
      exact hb m (find_modified_assets_mem aat builtinLocal modified heqm m hm)

theorem removal_fold_preserves (x : Asset) :
    ∀ (rs cur : List Asset),
      (∀ r ∈ rs, Asset.idD r ≠ Asset.idD x) → x ∈ cur →
      x ∈ rs.foldl
        (fun cur r => cur.filter (fun role => Asset.idD role != Asset.idD r)) cur := by
  intro rs
  induction rs with
  | nil =>
    intro cur _ hx
    exact hx
  | cons r rest ih =>
    intro cur hrs hx
    rw [List.foldl_cons]
    refine ih _ (fun r' h' => hrs r' (by simp [h'])) ?_
    refine List.mem_filter.mpr ⟨hx, ?_⟩
    have hne := hrs r (by simp)
    rw [bne_iff_ne]
    exact fun hh => hne (hh.symm)

theorem sync_removed_phase_preserves (aat builtinLocal local2 out : List Asset)
    (x : Asset)
    (hb : ∀ m ∈ builtinLocal, Asset.idD m ≠ Asset.idD x)
    (h : AzTierSyncer.sync_removed_phase aat builtinLocal local2 = .ok out)
    (hx : x ∈ local2) : x ∈ out := by
  rw [AzTierSyncer.sync_removed_phase] at h
  split at h
  · cases h
  · rename_i removed heqrem
    cases h
    have hremkey : ∀ r ∈ removed.filter
        (fun role => Asset.get? role "assetType" == some "Built-in"),
        Asset.idD r ≠ Asset.idD x := by
      intro r hr
      rcases List.mem_filter.mp hr with ⟨hrrem, -⟩
      exact hb r (syncer_removed_spec aat builtinLocal removed heqrem r hrrem).1
    exact removal_fold_preserves x _ local2 hremkey hx

theorem run_sync_workflow_azure_preserves_custom
    (keep incl : Bool) (aat localRoles : List Asset)
    (idsInUse defIds : List String) (x : Asset) (result : List Asset)
    (hx : x ∈ localRoles)
    (hcustom : Asset.get? x "assetType" = some "Custom")
    (hids : (localRoles.map Asset.idD).Nodup)
    (hrun : AzTierSyncer.run_sync_workflow_azure keep incl aat localRoles idsInUse defIds
      = .ok result) :
    x ∈ result := by
  have hkey : ∀ m ∈ localRoles.filter
      (fun role => Asset.get? role "assetType" == some "Built-in"),
      Asset.idD m ≠ Asset.idD x := by
    intro m hm heq
    rcases List.mem_filter.mp hm with ⟨hmL, hmB⟩
    have hBi : Asset.get? m "assetType" = some "Built-in" := by simpa using hmB
    have hmx : m = x := List.inj_on_of_nodup_map hids hmL hx heq
    rw [hmx, hcustom] at hBi
    simp at hBi
  rw [AzTierSyncer.run_sync_workflow_azure] at hrun
  split at hrun
  · cases hrun
  · rename_i enriched_added heqadd
    split at hrun
    · cases hrun
    · rename_i local2 heqphase
      split at hrun
      · cases hrun
      · rename_i local3 heqrem
        cases hrun
        have hx1 : x ∈ localRoles ++ enriched_added := List.mem_append_left _ hx
        have hx2 : x ∈ local2 :=
          sync_modified_phase_preserves keep aat _ _ local2 x hkey heqphase hx1
        have hx3 : x ∈ local3 :=
          sync_removed_phase_preserves aat _ local2 local3 x hkey heqrem hx2
        split
        · refine List.mem_filter.mpr ⟨hx3, ?_⟩
          rw [hcustom]
          simp
        · exact hx3

theorem watcher_azure_removal_preserves (azure_roles tiered : List Asset) (x : Asset)
    (hx : x ∈ tiered) (hid : Asset.idD x ∈ azure_roles.map Asset.idD) :
    x ∈ AzTierWatcher.watcher_azure_removal azure_roles tiered := by
  show x ∈ tiered.filter
    (fun role => !((AzTierWatcher.find_removed_assets azure_roles tiered).contains role))
  refine List.mem_filter.mpr ⟨hx, ?_⟩
  have hnot : x ∉ AzTierWatcher.find_removed_assets azure_roles tiered := by
    intro hmem
    exact (watcher_removed_spec azure_roles tiered x hmem).2 hid
  have hcont : ((AzTierWatcher.find_removed_assets azure_roles tiered).contains x)
      = false := by
    rw [Bool.eq_false_iff]
    intro hc
    exact hnot (List.elem_iff.mp hc)
  rw [hcont]
  rfl

/-- C1, counterexample: a tiered list holding exactly one Custom asset, with a
tenant state in which that asset occurs neither among the in-use built-in roles
nor among the tenant's custom role definitions (the merged list passed to the
removal step is empty).  The Watcher's Azure-roles removal step deletes the
custom asset from the tiered list, contradicting "neither the Watcher
drift-detection run nor the Syncer sync run removes it". -/
theorem C1_counterexample :
    Asset.get? [("id", "c1"), ("assetType", "Custom")] "assetType" = some "Custom" ∧
    AzTierWatcher.watcher_azure_removal [] [[("id", "c1"), ("assetType", "Custom")]]
      = [] := by
  exact ⟨rfl, by rfl⟩

/-- C1 (amended): the Syncer's sync run never removes a locally tiered Custom
asset, for every upstream AAT set, tenant-in-use set and configuration
(assuming the tiered file's documented id-uniqueness invariant); the Watcher's
drift-detection removal step preserves a tiered asset — custom or not — only
when its id still occurs in the merged tenant role list, and (per the
counterexample) deletes a Custom asset whose id has disappeared from it. -/
theorem C1_amended_custom_preservation :
    (∀ (keep incl : Bool) (aat localRoles : List Asset)
      (idsInUse defIds : List String) (x : Asset) (result : List Asset),
      x ∈ localRoles →
      Asset.get? x "assetType" = some "Custom" →
      (localRoles.map Asset.idD).Nodup →
      AzTierSyncer.run_sync_workflow_azure keep incl aat localRoles idsInUse defIds
        = .ok result →
      x ∈ result) ∧
    (∀ (azure_roles tiered : List Asset) (x : Asset),
      x ∈ tiered → Asset.idD x ∈ azure_roles.map Asset.idD →
      x ∈ AzTierWatcher.watcher_azure_removal azure_roles tiered) :=
  ⟨fun keep incl aat localRoles idsInUse defIds x result hx hcustom hids hrun =>
    run_sync_workflow_azure_preserves_custom keep incl aat localRoles idsInUse defIds
      x result hx hcustom hids hrun,
   fun azure_roles tiered x hx hid =>
    watcher_azure_removal_preserves azure_roles tiered x hx hid⟩

/-- Witness for C1: a concrete Syncer run (AAT empty, `includeOnlyRolesInUse`
on) keeps the custom asset, and a concrete Watcher run keeps it while its id is
still in the tenant list. -/
theorem C1_witness :
    [("id", "c1"), ("assetType", "Custom")] ∈
      ([[("id", "c1"), ("assetType", "Custom")]] : List Asset) ∧
    [("id", "c1"), ("assetType", "Custom")] ∈
      AzTierWatcher.watcher_azure_removal [[("id", "c1"), ("assetType", "Custom")]]
        [[("id", "c1"), ("assetType", "Custom")]] := by
  constructor
  · exact C1_amended_custom_preservation.1 false true []
      [[("id", "c1"), ("assetType", "Custom")]] [] []
      [("id", "c1"), ("assetType", "Custom")]
      [[("id", "c1"), ("assetType", "Custom")]]
      (by decide) (by decide) (by decide) (by rfl)
  · exact C1_amended_custom_preservation.2
      [[("id", "c1"), ("assetType", "Custom")]]
      [[("id", "c1"), ("assetType", "Custom")]]
      [("id", "c1"), ("assetType", "Custom")]
      (by decide) (by decide)
